import Mathlib

/-!
Verification of the modular_tree procedural tree / leaf generation core.

The C++ sources under src/m_tree are shallowly embedded: float arithmetic is
modelled by real arithmetic, `std::vector` by `List`, member functions by
plain functions on parameter structures.  Each definition mirrors one source
function and keeps its name where Lean allows it.
-/

open Classical

noncomputable section

/-- Two dimensional vector, modelling `Eigen::Vector2f` (`Vector2`). -/
structure Vec2 where
  x : ℝ
  y : ℝ

/-- Three dimensional vector, modelling `Eigen::Vector3f` (`Vector3`). -/
structure Vec3 where
  x : ℝ
  y : ℝ
  z : ℝ

def Vec2.add (u v : Vec2) : Vec2 := ⟨u.x + v.x, u.y + v.y⟩

def Vec2.sub (u v : Vec2) : Vec2 := ⟨u.x - v.x, u.y - v.y⟩

def Vec2.smul (c : ℝ) (v : Vec2) : Vec2 := ⟨c * v.x, c * v.y⟩

def Vec2.dot (u v : Vec2) : ℝ := u.x * v.x + u.y * v.y

/-- `Eigen` `squaredNorm`. -/
def Vec2.squaredNorm (v : Vec2) : ℝ := v.x * v.x + v.y * v.y

/-- `Eigen` `norm`. -/
def Vec2.norm (v : Vec2) : ℝ := Real.sqrt v.squaredNorm

/-- `Eigen` `normalized` (division by zero yields the zero vector in this model). -/
def Vec2.normalized (v : Vec2) : Vec2 := ⟨v.x / v.norm, v.y / v.norm⟩

def Vec3.add (u v : Vec3) : Vec3 := ⟨u.x + v.x, u.y + v.y, u.z + v.z⟩

def Vec3.sub (u v : Vec3) : Vec3 := ⟨u.x - v.x, u.y - v.y, u.z - v.z⟩

def Vec3.smul (c : ℝ) (v : Vec3) : Vec3 := ⟨c * v.x, c * v.y, c * v.z⟩

/-- `std::clamp(v, lo, hi)`. -/
def clampR (v lo hi : ℝ) : ℝ := min (max v lo) hi

/-- Truncation toward zero, modelling C `static_cast<int>` / the truncation done
by C `fmod`. -/
def truncR (x : ℝ) : ℤ := if 0 ≤ x then ⌊x⌋ else ⌈x⌉

/-- C `fmod(x, y) = x - trunc(x / y) * y`. -/
def fmodR (x y : ℝ) : ℝ := x - y * (truncR (x / y) : ℝ)

theorem truncR_of_nonneg {x : ℝ} (h : 0 ≤ x) : truncR x = ⌊x⌋ := by
  simp [truncR, h]

theorem fmodR_nonneg {x y : ℝ} (hx : 0 ≤ x) (hy : 0 < y) : 0 ≤ fmodR x y := by
  have hq : 0 ≤ x / y := div_nonneg hx hy.le
  rw [fmodR, truncR_of_nonneg hq, sub_nonneg]
  calc y * (⌊x / y⌋ : ℝ) ≤ y * (x / y) := by
        exact mul_le_mul_of_nonneg_left (Int.floor_le _) hy.le
    _ = x := by field_simp

theorem fmodR_lt {x y : ℝ} (hx : 0 ≤ x) (hy : 0 < y) : fmodR x y < y := by
  have hq : 0 ≤ x / y := div_nonneg hx hy.le
  rw [fmodR, truncR_of_nonneg hq, sub_lt_iff_lt_add]
  have h1 : x / y < ⌊x / y⌋ + 1 := Int.lt_floor_add_one _
  have := (div_lt_iff₀ hy).mp h1
  calc x < ((⌊x / y⌋ : ℝ) + 1) * y := this
    _ = y + y * (⌊x / y⌋ : ℝ) := by ring

/-! ## CrownShape (src/m_tree/source/tree_functions/CrownShape.hpp)

The named constants of `CrownShapeUtils` are inlined with their values:
MIN_RATIO = 0.2, RATIO_RANGE = 0.8, TAPER_BASE = 0.5, TAPER_RANGE = 0.5,
FLAME_PEAK = 0.7, FLAME_FALLOFF = 0.3. -/

inductive CrownShape where
  | Conical
  | Spherical
  | Hemispherical
  | Cylindrical
  | TaperedCylindrical
  | Flame
  | InverseConical
  | TendFlame
deriving DecidableEq

/-- `CrownShapeUtils::get_shape_ratio` from CrownShape.hpp lines 30-57. -/
def get_shape_ratio (shape : CrownShape) (ratio : ℝ) : ℝ :=
  let r := clampR ratio 0 1
  match shape with
  | .Conical => 0.2 + 0.8 * r
  | .Spherical => 0.2 + 0.8 * Real.sin (Real.pi * r)
  | .Hemispherical => 0.2 + 0.8 * Real.sin (Real.pi / 2 * r)
  | .Cylindrical => 1
  | .TaperedCylindrical => 0.5 + 0.5 * r
  | .Flame => if r ≤ 0.7 then r / 0.7 else (1 - r) / 0.3
  | .InverseConical => 1 - 0.8 * r
  | .TendFlame =>
      if r ≤ 0.7 then 0.5 + 0.5 * r / 0.7 else 0.5 + 0.5 * (1 - r) / 0.3

/-- The crown-shape table exactly as the specification words it, as a function
of an already-clamped ratio. -/
def spec_crown_table (shape : CrownShape) (r : ℝ) : ℝ :=
  match shape with
  | .Conical => 0.2 + 0.8 * r
  | .Spherical => 0.2 + 0.8 * Real.sin (Real.pi * r)
  | .Hemispherical => 0.2 + 0.8 * Real.sin (Real.pi / 2 * r)
  | .Cylindrical => 1
  | .TaperedCylindrical => 0.5 + 0.5 * r
  | .Flame => if r ≤ 0.7 then r / 0.7 else (1 - r) / 0.3
  | .InverseConical => 1 - 0.8 * r
  | .TendFlame =>
      if r ≤ 0.7 then 0.5 + 0.5 * r / 0.7 else 0.5 + 0.5 * (1 - r) / 0.3

/-- C2: for every crown shape and every real ratio, `get_shape_ratio` equals
the specification's table applied to the ratio clamped to [0, 1]. -/
theorem crown_shape_ratio_matches_spec_table (shape : CrownShape) (ratio : ℝ) :
    get_shape_ratio shape ratio = spec_crown_table shape (clampR ratio 0 1) := by
  cases shape <;> rfl

/-! ## BranchFunction gravity step
(src/m_tree/source/tree_functions/BranchFunction.cpp lines 101-125)

`apply_gravity_rec` mutates, at each visited node, the fields `age` and
`deviation_from_rest_pose` of its `BranchGrowthInfo` and produces the angular
displacement used in the rotation.  The per-node state transition is embedded
here; the guard `if (!info.inactive || true)` is always true and is dropped.
`std::pow(w, .5f)` is modelled as `Real.sqrt w` (weights are sums of
nonnegative lengths). -/

structure BranchGravState where
  dir_z : ℝ
  cumulated_weight : ℝ
  deviation_from_rest_pose : ℝ
  age : ℝ

/-- Per-node body of `BranchFunction::apply_gravity_rec`: returns the angular
displacement together with the updated `age` and `deviation_from_rest_pose`.
Statement order follows the source: `age` is incremented first, then the
displacement is computed, then accumulated into the deviation. -/
def apply_gravity_node_step (strength stiffness resolution : ℝ)
    (s : BranchGravState) : ℝ × BranchGravState :=
  let horizontality := 1 - |s.dir_z|
  let age1 := s.age + 1 / resolution
  let displacement0 := horizontality * Real.sqrt s.cumulated_weight * strength /
      resolution / resolution / 1000 / (1 + age1)
  let displacement := displacement0 *
      Real.exp (-|s.deviation_from_rest_pose / resolution * stiffness|)
  (displacement,
   { s with age := age1,
            deviation_from_rest_pose := s.deviation_from_rest_pose + displacement })

/-- The displacement exactly as claim C3 words it: horizontality ·
√cumulated_weight · strength / resolution² / 1000 / (1 + age) ·
exp(−|deviation| / resolution · stiffness), with age the node's age before the
step. -/
def claimed_gravity_displacement (strength stiffness resolution : ℝ)
    (s : BranchGravState) : ℝ :=
  (1 - |s.dir_z|) * Real.sqrt s.cumulated_weight * strength / resolution ^ 2 /
      1000 / (1 + s.age) *
    Real.exp (-(|s.deviation_from_rest_pose| / resolution * stiffness))

/-- C3 counterexample: at a node with direction z = 0, cumulated weight 1,
age 0 and zero deviation, with strength 1000, stiffness 0 and resolution 1,
the code's displacement is 1/2 while the claimed formula gives 1 — the code
increments `age` by 1/resolution before computing the displacement, so the
claimed pre-step age is wrong. -/
theorem gravity_displacement_claim_false :
    (apply_gravity_node_step 1000 0 1 ⟨0, 1, 0, 0⟩).1 ≠
      claimed_gravity_displacement 1000 0 1 ⟨0, 1, 0, 0⟩ := by
  simp only [apply_gravity_node_step, claimed_gravity_displacement]
  norm_num [Real.sqrt_one]

/-- C3 amended: at each visited node the angular displacement equals
horizontality · √cumulated_weight · strength / resolution² / 1000 /
(1 + age + 1/resolution) · exp(−|deviation / resolution · stiffness|), where
age is the node's age before the step (the code increments age by
1/resolution before computing the displacement); the displacement is
accumulated into `deviation_from_rest_pose`, the age field ends at
age + 1/resolution, and the other fields are unchanged. -/
theorem gravity_displacement_formula (strength stiffness resolution : ℝ)
    (s : BranchGravState) :
    (apply_gravity_node_step strength stiffness resolution s).1 =
      (1 - |s.dir_z|) * Real.sqrt s.cumulated_weight * strength /
          resolution ^ 2 / 1000 / (1 + s.age + 1 / resolution) *
        Real.exp (-|s.deviation_from_rest_pose / resolution * stiffness|) ∧
    (apply_gravity_node_step strength stiffness resolution s).2.age =
      s.age + 1 / resolution ∧
    (apply_gravity_node_step strength stiffness resolution s).2.deviation_from_rest_pose =
      s.deviation_from_rest_pose +
        (apply_gravity_node_step strength stiffness resolution s).1 ∧
    (apply_gravity_node_step strength stiffness resolution s).2.dir_z = s.dir_z ∧
    (apply_gravity_node_step strength stiffness resolution s).2.cumulated_weight =
      s.cumulated_weight := by
  refine ⟨?_, rfl, rfl, rfl, rfl⟩
  simp only [apply_gravity_node_step]
  rw [div_div (_ * Real.sqrt _ * strength) resolution resolution, ← sq resolution]
  ring_nf

/-! ## GrowthFunction vigor-ratio pass
(src/m_tree/source/tree_functions/GrowthFunction.cpp lines 27-68)

`update_vigor_ratio_rec` only reads the node type and the children list and
only writes the `vigor_ratio` fields, so a node is embedded as its type, its
`vigor_ratio` and its children; the remaining `BioNodeInfo` fields are
untouched by this pass. -/

inductive NodeType where
  | Meristem
  | Branch
  | Cut
  | Ignored
  | Dormant
  | Flower
deriving DecidableEq

inductive BioTree where
  | node (ty : NodeType) (vigor_ratio : ℝ) (children : List BioTree)

def BioTree.ty : BioTree → NodeType
  | .node t _ _ => t

def BioTree.vigorRatio : BioTree → ℝ
  | .node _ v _ => v

def BioTree.children : BioTree → List BioTree
  | .node _ _ c => c

def BioTree.setVigorRatio (v : ℝ) : BioTree → BioTree
  | .node t _ c => .node t v c

/-- Modelled from the spec: the header defining `GrowthConstants` is not among
the sources (GrowthFunction.cpp only uses it); the spec fixes the dormant-bud
energy request at 0.3. -/
def kDormantBudEnergyRequest : ℝ := 0.3

/-- Modelled from the spec: `GrowthConstants::kEpsilon`, fixed at 1e-3 by the
spec's vigor-ratio formula. -/
def kEpsilon : ℝ := 1e-3

/-- The ratio computed in the loop of `update_vigor_ratio_rec`:
`(t * light_flux) / (t * light_flux + (1 - t) * child_flux + kEpsilon)`. -/
def vr_step (t light_flux child_flux : ℝ) : ℝ :=
  (t * light_flux) / (t * light_flux + (1 - t) * child_flux + kEpsilon)

mutual

/-- `GrowthFunction::update_vigor_ratio_rec`: returns the node's flux and the
tree with the children's `vigor_ratio` fields updated. -/
def update_vigor_ratio_rec (t : ℝ) : BioTree → ℝ × BioTree
  | .node ty vr cs =>
    if ty = .Meristem then (1, .node ty vr cs)
    else if ty = .Dormant then
      (kDormantBudEnergyRequest, .node ty kDormantBudEnergyRequest cs)
    else if ty = .Branch ∨ ty = .Ignored then
      match cs with
      | [] => (0, .node ty 0 [])
      | c :: rest =>
        let r0 := update_vigor_ratio_rec t c
        let rr := update_vigor_children t r0.1 1 rest
        (rr.1, .node ty vr (BioTree.setVigorRatio rr.2.1 r0.2 :: rr.2.2))
    else (0, .node ty 0 cs)

/-- The `for (i = 1; ...)` loop of `update_vigor_ratio_rec`, over the children
after the first: carries the accumulated `light_flux` and the running
`vigor_ratio`, records `1 - vigor_ratio` on each visited child, and returns
the final flux, the final `vigor_ratio` (written to the first child by the
caller) and the rewritten children. -/
def update_vigor_children (t light_flux vigor_ratio : ℝ) :
    List BioTree → ℝ × ℝ × List BioTree
  | [] => (light_flux, vigor_ratio, [])
  | c :: rest =>
    let rc := update_vigor_ratio_rec t c
    let vr1 := vr_step t light_flux rc.1
    let rr := update_vigor_children t (light_flux + rc.1) vr1 rest
    (rr.1, rr.2.1, BioTree.setVigorRatio (1 - vr1) rc.2 :: rr.2.2)

end

/-- The flux a node contributes, i.e. the first component returned by
`update_vigor_ratio_rec`. -/
def bio_flux (t : ℝ) (b : BioTree) : ℝ := (update_vigor_ratio_rec t b).1

def junkTree : BioTree := .node .Cut 0 []

theorem uc_flux (t : ℝ) (cs : List BioTree) : ∀ L vr : ℝ,
    (update_vigor_children t L vr cs).1 = L + (cs.map (bio_flux t)).sum := by
  induction cs with
  | nil => intro L vr; simp [update_vigor_children]
  | cons c rest ih =>
      intro L vr
      simp only [update_vigor_children, List.map_cons, List.sum_cons]
      rw [ih]
      rw [bio_flux]
      ring

theorem uc_len (t : ℝ) (cs : List BioTree) : ∀ L vr : ℝ,
    (update_vigor_children t L vr cs).2.2.length = cs.length := by
  induction cs with
  | nil => intro L vr; simp [update_vigor_children]
  | cons c rest ih =>
      intro L vr
      simp only [update_vigor_children, List.length_cons]
      rw [ih]

theorem uc_getD (t : ℝ) (cs : List BioTree) : ∀ (L vr : ℝ) (k : ℕ), k < cs.length →
    (update_vigor_children t L vr cs).2.2.getD k junkTree =
      BioTree.setVigorRatio
        (1 - vr_step t (L + ((cs.take k).map (bio_flux t)).sum)
          (bio_flux t (cs.getD k junkTree)))
        (update_vigor_ratio_rec t (cs.getD k junkTree)).2 := by
  induction cs with
  | nil => intro L vr k hk; simp at hk
  | cons c rest ih =>
      intro L vr k hk
      cases k with
      | zero =>
          simp [update_vigor_children, bio_flux]
      | succ k =>
          have hk' : k < rest.length := by simpa using hk
          simp only [update_vigor_children, List.getD_cons_succ, List.take_succ_cons,
            List.map_cons, List.sum_cons]
          rw [ih (L + (update_vigor_ratio_rec t c).1) (vr_step t L (update_vigor_ratio_rec t c).1) k hk']
          have harg : L + (update_vigor_ratio_rec t c).1 +
              (List.map (bio_flux t) (List.take k rest)).sum =
              L + (bio_flux t c + (List.map (bio_flux t) (List.take k rest)).sum) := by
            rw [bio_flux]; ring
          rw [harg]

theorem uc_last (t : ℝ) (cs : List BioTree) : ∀ L vr : ℝ, cs ≠ [] →
    (update_vigor_children t L vr cs).2.2.getLast?.map BioTree.vigorRatio =
      some (1 - (update_vigor_children t L vr cs).2.1) := by
  induction cs with
  | nil => intro L vr h; exact absurd rfl h
  | cons c rest ih =>
      intro L vr _
      cases rest with
      | nil =>
          simp [update_vigor_children, BioTree.setVigorRatio, BioTree.vigorRatio]
          cases (update_vigor_ratio_rec t c).2 with
          | node ty v cs => simp [BioTree.setVigorRatio, BioTree.vigorRatio]
      | cons c' rest' =>
          have hne : (c' :: rest') ≠ ([] : List BioTree) := by simp
          have hih := ih (L + (update_vigor_ratio_rec t c).1)
            (vr_step t L (update_vigor_ratio_rec t c).1) hne
          simp only [update_vigor_children] at hih ⊢
          rw [List.getLast?_cons_cons]
          exact hih

theorem setVigorRatio_vigorRatio (v : ℝ) (b : BioTree) :
    (BioTree.setVigorRatio v b).vigorRatio = v := by
  cases b; rfl

theorem uvr_branch_eq (t : ℝ) (ty : NodeType) (vr : ℝ)
    (hty : ty = NodeType.Branch ∨ ty = NodeType.Ignored)
    (c : BioTree) (rest : List BioTree) :
    update_vigor_ratio_rec t (.node ty vr (c :: rest)) =
      ((update_vigor_children t (update_vigor_ratio_rec t c).1 1 rest).1,
       .node ty vr
        (BioTree.setVigorRatio
            (update_vigor_children t (update_vigor_ratio_rec t c).1 1 rest).2.1
            (update_vigor_ratio_rec t c).2 ::
          (update_vigor_children t (update_vigor_ratio_rec t c).1 1 rest).2.2)) := by
  rcases hty with rfl | rfl <;> simp [update_vigor_ratio_rec]

/-- C4: in the vigor-ratio pass, a Meristem contributes flux 1; a Dormant node
contributes 0.3 and records vigor_ratio = 0.3; for a Branch or Ignored node
with children, the node returns the sum of its children's fluxes, each child
at position k + 1 is recorded with vigor_ratio = 1 − (t·L)/(t·L + (1−t)·F + 1e-3)
where L is the summed flux of the children before it and F its own flux, and
the first child receives the value complementary to the last child's. -/
theorem growth_vigor_ratio_spec (t : ℝ) (ty : NodeType) (vr : ℝ)
    (hty : ty = NodeType.Branch ∨ ty = NodeType.Ignored)
    (c : BioTree) (rest : List BioTree) :
    (∀ (v : ℝ) (cs : List BioTree),
      (update_vigor_ratio_rec t (.node .Meristem v cs)).1 = 1) ∧
    (∀ (v : ℝ) (cs : List BioTree),
      (update_vigor_ratio_rec t (.node .Dormant v cs)).1 = 0.3 ∧
      ((update_vigor_ratio_rec t (.node .Dormant v cs)).2).vigorRatio = 0.3) ∧
    (update_vigor_ratio_rec t (.node ty vr (c :: rest))).1 =
      ((c :: rest).map (bio_flux t)).sum ∧
    (∀ k, k < rest.length →
      (((update_vigor_ratio_rec t (.node ty vr (c :: rest))).2).children.getD (k + 1)
          junkTree).vigorRatio =
        1 - (t * (((c :: rest).take (k + 1)).map (bio_flux t)).sum) /
            (t * (((c :: rest).take (k + 1)).map (bio_flux t)).sum +
              (1 - t) * bio_flux t ((c :: rest).getD (k + 1) junkTree) + 1e-3)) ∧
    (rest ≠ [] →
      ((((update_vigor_ratio_rec t (.node ty vr (c :: rest))).2).children.head?.map
          BioTree.vigorRatio).getD 0 +
       (((update_vigor_ratio_rec t (.node ty vr (c :: rest))).2).children.getLast?.map
          BioTree.vigorRatio).getD 0) = 1) := by
  refine ⟨?_, ?_, ?_, ?_, ?_⟩
  · intro v cs
    cases cs <;> simp [update_vigor_ratio_rec]
  · intro v cs
    constructor
    · cases cs <;> simp [update_vigor_ratio_rec, kDormantBudEnergyRequest]
    · cases cs <;> simp [update_vigor_ratio_rec, kDormantBudEnergyRequest, BioTree.vigorRatio]
  · rw [uvr_branch_eq t ty vr hty c rest]
    rw [uc_flux]
    simp only [List.map_cons, List.sum_cons, bio_flux]
  · intro k hk
    rw [uvr_branch_eq t ty vr hty c rest]
    simp only [BioTree.children, List.getD_cons_succ]
    rw [uc_getD t rest _ _ k hk]
    rw [setVigorRatio_vigorRatio]
    simp only [vr_step, kEpsilon, List.take_succ_cons, List.map_cons, List.sum_cons,
      List.getD_cons_succ]
    rw [show (update_vigor_ratio_rec t c).1 = bio_flux t c from rfl]
  · intro hne
    rw [uvr_branch_eq t ty vr hty c rest]
    simp only [BioTree.children, List.head?_cons, Option.map_some, Option.getD_some,
      setVigorRatio_vigorRatio]
    rcases hr : (update_vigor_children t (update_vigor_ratio_rec t c).1 1 rest).2.2 with
      _ | ⟨y, ys⟩
    · exfalso
      have hlen := uc_len t rest (update_vigor_ratio_rec t c).1 1
      rw [hr] at hlen
      cases rest
      · exact hne rfl
      · simp at hlen
    · rw [List.getLast?_cons_cons]
      have hlast := uc_last t rest (update_vigor_ratio_rec t c).1 1 ?_
      · rw [hr] at hlast
        rw [hlast]
        simp only [Option.map_some', Option.map_some, Option.getD_some,
          setVigorRatio_vigorRatio]
        ring
      · intro hcon
        rw [hcon] at hr
        simp [update_vigor_children] at hr

/-- C4 witness: at t = 1/2, a Branch node with two Meristem children returns
flux 1 + 1 = 2. -/
theorem growth_vigor_ratio_spec_witness :
    (update_vigor_ratio_rec (1 / 2)
      (BioTree.node NodeType.Branch 1
        [BioTree.node NodeType.Meristem 1 [],
         BioTree.node NodeType.Meristem 1 []])).1 = 2 := by
  have h := (growth_vigor_ratio_spec (1 / 2) NodeType.Branch 1 (Or.inl rfl)
    (BioTree.node NodeType.Meristem 1 [])
    [BioTree.node NodeType.Meristem 1 []]).2.2.1
  rw [h]
  norm_num [bio_flux, update_vigor_ratio_rec]

/-! ## ManifoldMesher phyllotaxis attribute

The body of `ManifoldMesher::mesh_tree` is not among the sources: only its
declaration (ManifoldMesher.hpp) and its tests (tests/main.cpp) are, so the
attribute is modelled from the spec (§4.1.4). -/

/-- The golden angle constant, 2.39996322972865 radians. -/
def golden_angle : ℝ := 2.39996322972865

/-- Modelled from the spec: `ManifoldMesher::mesh_tree` places, per tree node,
one cross-sectional ring of `radial_resolution` vertices; a meshed tree is
abstracted to its radial resolution and its number of rings (sections). -/
structure MeshedTree where
  radial_resolution : ℕ
  sections : ℕ

/-- Modelled from the spec: the per-ring phyllotaxis value,
`fmod(section_index * golden_angle, 2π)`. -/
def phyllotaxis_ring_value (s : ℕ) : ℝ := fmodR (s * golden_angle) (2 * Real.pi)

def mesh_tree_vertex_count (mt : MeshedTree) : ℕ :=
  mt.sections * mt.radial_resolution

/-- Modelled from the spec: the parallel-to-vertices float attribute that
`ManifoldMesher::mesh_tree` attaches under the name "phyllotaxis_angle"; the
vertex at flat index `idx` belongs to ring `idx / radial_resolution` and
carries that ring's value. -/
def mesh_tree_phyllotaxis_attribute (mt : MeshedTree) : String × List ℝ :=
  ("phyllotaxis_angle",
   (List.range (mesh_tree_vertex_count mt)).map
     (fun idx => phyllotaxis_ring_value (idx / mt.radial_resolution)))

/-- C1 (modelled from the spec, the mesher body being absent from the
sources): every mesh emitted by mesh_tree carries a per-vertex float attribute
named "phyllotaxis_angle", parallel to the vertices; all vertices of the same
ring share one value, namely fmod(s · 2.39996322972865, 2π) at ring s, and
every value lies in [0, 2π). -/
theorem mesher_phyllotaxis_attribute_spec (mt : MeshedTree) :
    (mesh_tree_phyllotaxis_attribute mt).1 = "phyllotaxis_angle" ∧
    (mesh_tree_phyllotaxis_attribute mt).2.length = mesh_tree_vertex_count mt ∧
    (∀ s i, s < mt.sections → i < mt.radial_resolution →
      (mesh_tree_phyllotaxis_attribute mt).2.getD (s * mt.radial_resolution + i) 0 =
        fmodR (s * golden_angle) (2 * Real.pi)) ∧
    (∀ s : ℕ, 0 ≤ phyllotaxis_ring_value s ∧ phyllotaxis_ring_value s < 2 * Real.pi) := by
  refine ⟨rfl, by simp [mesh_tree_phyllotaxis_attribute], ?_, ?_⟩
  · intro s i hs hi
    have hrr : 0 < mt.radial_resolution := by omega
    have hidx : s * mt.radial_resolution + i < mesh_tree_vertex_count mt := by
      have h1 : s * mt.radial_resolution + i < (s + 1) * mt.radial_resolution := by
        have : (s + 1) * mt.radial_resolution =
            s * mt.radial_resolution + mt.radial_resolution := by ring
        omega
      have h2 : (s + 1) * mt.radial_resolution ≤ mesh_tree_vertex_count mt :=
        Nat.mul_le_mul_right _ hs
      omega
    have hdiv : (s * mt.radial_resolution + i) / mt.radial_resolution = s := by
      rw [mul_comm s mt.radial_resolution, Nat.mul_add_div hrr,
        Nat.div_eq_of_lt hi]
      omega
    simp only [mesh_tree_phyllotaxis_attribute, List.getD_eq_getElem?_getD,
      List.getElem?_map]
    rw [List.getElem?_range hidx]
    simp [hdiv, phyllotaxis_ring_value]
  · intro s
    have hx : (0 : ℝ) ≤ (s : ℝ) * golden_angle := by
      have : (0 : ℝ) ≤ (s : ℝ) := Nat.cast_nonneg s
      have hg : (0 : ℝ) ≤ golden_angle := by norm_num [golden_angle]
      exact mul_nonneg this hg
    have hy : (0 : ℝ) < 2 * Real.pi := by positivity
    exact ⟨fmodR_nonneg hx hy, fmodR_lt hx hy⟩

/-- C1 witness: in a meshed tree of 2 rings of 8 vertices each, the vertex at
flat index 8 (ring 1) carries fmod(1 · golden_angle, 2π), in [0, 2π). -/
theorem mesher_phyllotaxis_attribute_spec_witness :
    (mesh_tree_phyllotaxis_attribute ⟨8, 2⟩).2.getD 8 0 =
      fmodR (1 * golden_angle) (2 * Real.pi) ∧
    0 ≤ phyllotaxis_ring_value 1 ∧ phyllotaxis_ring_value 1 < 2 * Real.pi := by
  have h := mesher_phyllotaxis_attribute_spec ⟨8, 2⟩
  refine ⟨?_, h.2.2.2 1⟩
  have h3 := h.2.2.1 1 0 (by norm_num) (by norm_num)
  simpa using h3

/-! ## Mesh container and LeafLODGenerator
(src/m_tree/source/leaf/LeafLODGenerator.cpp)

mesh/Mesh.hpp is not among the sources; the fields used by the embedded
functions follow the spec's §3 contract: vertices, uvs, polygons (4-tuples of
vertex indices) and uv_loops. -/

structure Mesh where
  vertices : List Vec3 := []
  uvs : List Vec2 := []
  polygons : List (ℕ × ℕ × ℕ × ℕ) := []
  uv_loops : List (ℕ × ℕ × ℕ × ℕ) := []

def Vec3.cross (u v : Vec3) : Vec3 :=
  ⟨u.y * v.z - u.z * v.y, u.z * v.x - u.x * v.z, u.x * v.y - u.y * v.x⟩

def Vec3.squaredNorm (v : Vec3) : ℝ := v.x * v.x + v.y * v.y + v.z * v.z

def Vec3.norm (v : Vec3) : ℝ := Real.sqrt v.squaredNorm

def Vec3.normalized (v : Vec3) : Vec3 := ⟨v.x / v.norm, v.y / v.norm, v.z / v.norm⟩

/-- `LeafLODGenerator::generate_card` (LeafLODGenerator.cpp lines 9-63). -/
def generate_card (source : Mesh) : Mesh :=
  if source.vertices.length < 3 then {} else
    let v0 := source.vertices.getD 0 ⟨0, 0, 0⟩
    let min_x := source.vertices.foldl (fun a v => min a v.x) v0.x
    let max_x := source.vertices.foldl (fun a v => max a v.x) v0.x
    let min_y := source.vertices.foldl (fun a v => min a v.y) v0.y
    let max_y := source.vertices.foldl (fun a v => max a v.y) v0.y
    let min_z := source.vertices.foldl (fun a v => min a v.z) v0.z
    let max_z := source.vertices.foldl (fun a v => max a v.z) v0.z
    let avg_z := (min_z + max_z) * 0.5
    { vertices := [⟨min_x, min_y, avg_z⟩, ⟨max_x, min_y, avg_z⟩,
                   ⟨max_x, max_y, avg_z⟩, ⟨min_x, max_y, avg_z⟩],
      uvs := [⟨0, 0⟩, ⟨1, 0⟩, ⟨1, 1⟩, ⟨0, 1⟩],
      polygons := [(0, 1, 2, 2), (0, 2, 3, 3)],
      uv_loops := [(0, 1, 2, 2), (0, 2, 3, 3)] }

/-- `LeafLODGenerator::generate_billboard_cloud` (LeafLODGenerator.cpp lines
65-137). -/
def generate_billboard_cloud (positions : List Vec3) (num_planes : ℤ) : Mesh :=
  if positions = [] ∨ num_planes < 1 then {} else
    let center := Vec3.smul (1 / (positions.length : ℝ))
      (positions.foldl Vec3.add ⟨0, 0, 0⟩)
    let max_dist := positions.foldl (fun a p => max a (p.sub center).norm) 0
    let half_size := max max_dist 0.5
    (List.range num_planes.toNat).foldl (fun cloud i =>
      let angle := Real.pi * (i : ℝ) / (num_planes : ℝ)
      let normal : Vec3 := ⟨Real.cos angle, 0, Real.sin angle⟩
      let up : Vec3 := ⟨0, 1, 0⟩
      let tangent0 := (up.cross normal).normalized
      let tangent := if tangent0.norm < 0.001 then (⟨1, 0, 0⟩ : Vec3) else tangent0
      let bitangent := (normal.cross tangent).normalized
      let base := cloud.vertices.length
      { vertices := cloud.vertices ++
          [((center.sub (Vec3.smul half_size tangent)).sub (Vec3.smul half_size bitangent)),
           ((center.add (Vec3.smul half_size tangent)).sub (Vec3.smul half_size bitangent)),
           ((center.add (Vec3.smul half_size tangent)).add (Vec3.smul half_size bitangent)),
           ((center.sub (Vec3.smul half_size tangent)).add (Vec3.smul half_size bitangent))],
        uvs := cloud.uvs ++ [⟨0, 0⟩, ⟨1, 0⟩, ⟨1, 1⟩, ⟨0, 1⟩],
        polygons := cloud.polygons ++
          [(base, base + 1, base + 2, base + 2), (base, base + 2, base + 3, base + 3)],
        uv_loops := cloud.uv_loops ++
          [(base, base + 1, base + 2, base + 2), (base, base + 2, base + 3, base + 3)] })
      {}

/-! ## VenationGenerator
(src/m_tree/source/leaf/VenationGenerator.cpp, VenationGenerator.hpp) -/

inductive VenationType where
  | Open
  | Closed
deriving DecidableEq

/-- `VeinNode` from VenationGenerator.hpp: position, parent index (-1 = root),
width (default 1). -/
structure VeinNode where
  position : Vec2
  parent : ℤ
  width : ℝ

def defaultVein : VeinNode := ⟨⟨0, 0⟩, -1, 1⟩

/-- The public parameter fields of `VenationGenerator`. -/
structure VenationParams where
  type : VenationType
  vein_density : ℝ
  kill_distance : ℝ
  growth_step_size : ℝ
  attraction_distance : ℝ
  max_iterations : ℤ
  seed : ℤ

/-- Modelled from the spec: `std::mt19937` (an external library component)
seeded by the integer seed, drawn through `std::uniform_real_distribution`.
The spec only fixes that the draws form a deterministic stream in [0, 1)
derived from the seed alone; a linear congruential generator stands in. -/
def rng_state (seed : ℤ) : ℕ → ℕ
  | 0 => seed.natAbs % 2 ^ 32
  | n + 1 => (rng_state seed n * 1664525 + 1013904223) % 2 ^ 32

/-- Modelled from the spec: the n-th uniform draw in [0, 1) of the seeded
deterministic generator. -/
def rng_draw (seed : ℤ) (n : ℕ) : ℝ := (rng_state seed (n + 1) : ℝ) / 2 ^ 32

/-- The crossing condition of one edge (i, j) in
`VenationGenerator::point_in_contour` (lines 78-93), with j the predecessor
index of i. -/
def pic_cond (p : Vec2) (contour : List Vec2) (i : ℕ) : Prop :=
  let pi0 := contour.getD i ⟨0, 0⟩
  let pj := contour.getD ((i + contour.length - 1) % contour.length) ⟨0, 0⟩
  (¬((pi0.y > p.y) ↔ (pj.y > p.y))) ∧
    p.x < (pj.x - pi0.x) * (p.y - pi0.y) / (pj.y - pi0.y) + pi0.x

/-- `VenationGenerator::point_in_contour`: even-odd crossing count. -/
def point_in_contour (p : Vec2) (contour : List Vec2) : Bool :=
  ((List.range contour.length).countP (fun i => decide (pic_cond p contour i))) % 2 != 0

/-- `VenationGenerator::compute_contour_area` (lines 95-104). -/
def compute_contour_area (contour : List Vec2) : ℝ :=
  |(List.range contour.length).foldl (fun area i =>
    let pi0 := contour.getD i ⟨0, 0⟩
    let pj := contour.getD ((i + contour.length - 1) % contour.length) ⟨0, 0⟩
    area + pj.x * pi0.y - pi0.x * pj.y) 0| * 0.5

/-- The bounding-box computation repeated in `generate_auxin_sources` and
`generate_veins` (fold from `contour[0]`). -/
def contour_bbox (contour : List Vec2) : Vec2 × Vec2 :=
  let p0 := contour.getD 0 ⟨0, 0⟩
  (⟨contour.foldl (fun a p => min a p.x) p0.x,
    contour.foldl (fun a p => min a p.y) p0.y⟩,
   ⟨contour.foldl (fun a p => max a p.x) p0.x,
    contour.foldl (fun a p => max a p.y) p0.y⟩)

/-- `SpatialHash2D`: the cell array is modelled as a total function from cell
index to entry list (the constructor clamps accesses into range). -/
structure SpatialHash2D where
  cell_size : ℝ
  min_bound : Vec2
  grid_width : ℤ
  grid_height : ℤ
  cells : ℤ → List (ℕ × Vec2)

/-- `SpatialHash2D::SpatialHash2D` (lines 13-20). -/
def SpatialHash2D.init (cell_size : ℝ) (min_bound max_bound : Vec2) :
    SpatialHash2D :=
  { cell_size := cell_size
    min_bound := min_bound
    grid_width := max 1 (⌈(max_bound.x - min_bound.x) / cell_size⌉ + 1)
    grid_height := max 1 (⌈(max_bound.y - min_bound.y) / cell_size⌉ + 1)
    cells := fun _ => [] }

/-- `SpatialHash2D::to_cell` (lines 22-29). -/
def SpatialHash2D.to_cell (h : SpatialHash2D) (pos : Vec2) : ℤ × ℤ :=
  (min (max (truncR ((pos.x - h.min_bound.x) / h.cell_size)) 0) (h.grid_width - 1),
   min (max (truncR ((pos.y - h.min_bound.y) / h.cell_size)) 0) (h.grid_height - 1))

/-- `SpatialHash2D::cell_index` (line 31). -/
def SpatialHash2D.cell_index (h : SpatialHash2D) (cx cy : ℤ) : ℤ :=
  cy * h.grid_width + cx

/-- `SpatialHash2D::insert` (lines 33-37): appends the entry to its cell. -/
def SpatialHash2D.insert (h : SpatialHash2D) (id : ℕ) (pos : Vec2) :
    SpatialHash2D :=
  let c := h.to_cell pos
  let idx := h.cell_index c.1 c.2
  { h with cells := fun j => if j = idx then h.cells j ++ [(id, pos)] else h.cells j }

/-- The closed integer interval [lo, hi] as a list. -/
def int_range (lo hi : ℤ) : List ℤ :=
  (List.range (hi + 1 - lo).toNat).map (fun k => lo + (k : ℤ))

/-- `SpatialHash2D::query_radius` (lines 39-64): scan the cells overlapping
the query square, filter by exact squared distance. -/
def SpatialHash2D.query_radius (h : SpatialHash2D) (center : Vec2) (radius : ℝ) :
    List ℕ :=
  let cmin := h.to_cell (center.sub ⟨radius, radius⟩)
  let cmax := h.to_cell (center.add ⟨radius, radius⟩)
  (int_range cmin.2 cmax.2).flatMap (fun cy =>
    (int_range cmin.1 cmax.1).flatMap (fun cx =>
      (h.cells (h.cell_index cx cy)).filterMap (fun e =>
        if ((e.2.sub center).squaredNorm ≤ radius * radius) then some e.1 else none)))

/-- The bounded parent walk of `VenationGenerator::is_ancestor`
(lines 118-131); the fuel plays the role of the `steps` counter. -/
def is_ancestor_fuel (nodes : List VeinNode) (potential : ℤ) :
    ℕ → ℤ → Bool
  | 0, _ => false
  | fuel + 1, current =>
    if 0 ≤ current then
      if current = potential then true
      else is_ancestor_fuel nodes potential fuel
        ((nodes.getD current.toNat defaultVein).parent)
    else false

def is_ancestor (nodes : List VeinNode) (node_idx potential : ℤ) : Bool :=
  is_ancestor_fuel nodes potential nodes.length node_idx

/-- `VenationGenerator::compute_pipe_widths` (lines 133-166): count children,
give tips width 1, sum widths child-to-parent from the back, take
√max(width, 1). -/
def compute_pipe_widths (nodes : List VeinNode) : List VeinNode :=
  if nodes = [] then nodes else
    let child_count : ℕ → ℕ := fun i =>
      ((List.range nodes.length).drop 1).countP
        (fun j => decide ((nodes.getD j defaultVein).parent = (i : ℤ)))
    let w0 : ℕ → ℝ := fun i => if child_count i = 0 then 1 else 0
    let w1 := (List.range nodes.length).reverse.foldl (fun w i =>
      let p := (nodes.getD i defaultVein).parent
      if 0 ≤ p then (fun j => if j = p.toNat then w j + w i else w j) else w) w0
    (List.range nodes.length).map
      (fun i => { nodes.getD i defaultVein with width := Real.sqrt (max (w1 i) 1) })

/-- An auxin source of `VenationGenerator` (position, active flag). -/
structure Auxin where
  position : Vec2
  active : Bool

/-- The auxin count of `generate_auxin_sources` (lines 186-189):
`clamp(int(vein_density * area), 0, 5000)`. -/
def num_auxin_sources (params : VenationParams) (contour : List Vec2) : ℕ :=
  (max 0 (min (truncR (params.vein_density * compute_contour_area contour)) 5000)).toNat

/-- The rejection-sampling loop of `generate_auxin_sources` (lines 200-209):
each attempt consumes two draws; `fuel` counts the remaining attempts
(`num * 10` at the start), `ri` the next draw index. -/
def gen_auxins_loop (contour : List Vec2) (min_b max_b : Vec2) (num : ℕ)
    (draws : ℕ → ℝ) : ℕ → ℕ → List Auxin → List Auxin
  | _, 0, auxins => auxins
  | ri, fuel + 1, auxins =>
    if auxins.length < num then
      let pos : Vec2 := ⟨min_b.x + (max_b.x - min_b.x) * draws ri,
                         min_b.y + (max_b.y - min_b.y) * draws (ri + 1)⟩
      let auxins1 := if point_in_contour pos contour
        then auxins ++ [⟨pos, true⟩] else auxins
      gen_auxins_loop contour min_b max_b num draws (ri + 2) fuel auxins1
    else auxins

/-- `VenationGenerator::generate_auxin_sources` (lines 172-212). -/
def generate_auxin_sources (params : VenationParams) (contour : List Vec2)
    (draws : ℕ → ℝ) : List Auxin :=
  let bb := contour_bbox contour
  let num := num_auxin_sources params contour
  if num = 0 then [] else
    gen_auxins_loop contour bb.1 bb.2 num draws 0 (num * 10) []

/-- Root placement of `generate_veins` (lines 234-259): bottom-center, else
the contour point nearest to the bottom-center target stepped toward the
centroid by `growth_step_size`. -/
def venation_root (params : VenationParams) (contour : List Vec2) : Vec2 :=
  let bb := contour_bbox contour
  let root0 : Vec2 := ⟨0, bb.1.y + (bb.2.y - bb.1.y) * 0.02⟩
  if point_in_contour root0 contour then root0
  else
    let target : Vec2 := ⟨0, bb.1.y⟩
    let best := contour.foldl (fun acc p =>
      let d := (p.sub target).squaredNorm
      if d < acc.1 then (d, p) else acc) ((3.40282347e38 : ℝ), root0)
    let centroid := Vec2.smul (1 / (contour.length : ℝ))
      (contour.foldl Vec2.add ⟨0, 0⟩)
    best.2.add (Vec2.smul params.growth_step_size ((centroid.sub best.2).normalized))

/-- The mutable state of one `generate_veins` run. -/
structure VenationState where
  veins : List VeinNode
  auxins : List Auxin
  hash : SpatialHash2D

/-- The attraction pass of one Runions iteration (lines 278-316): per active
auxin, query the hash, pick the nearest vein (strict-minimum scan starting
from FLT_MAX), and accumulate the unit direction.  Returns the accumulated
directions, the per-vein counts and the number of active auxins. -/
def accumulate_attractions (params : VenationParams) (st : VenationState) :
    (ℕ → Vec2) × (ℕ → ℕ) × ℕ :=
  st.auxins.foldl (fun acc a =>
    if a.active then
      let acc1 : (ℕ → Vec2) × (ℕ → ℕ) × ℕ := (acc.1, acc.2.1, acc.2.2 + 1)
      let candidates := st.hash.query_radius a.position params.attraction_distance
      if candidates = [] then acc1
      else
        let nearest := candidates.foldl (fun best vid =>
          let d := ((st.veins.getD vid defaultVein).position.sub a.position).squaredNorm
          if d < best.2 then ((vid : ℤ), d) else best)
          ((-1 : ℤ), (3.40282347e38 : ℝ))
        if 0 ≤ nearest.1 then
          let vpos := (st.veins.getD nearest.1.toNat defaultVein).position
          let dir := a.position.sub vpos
          let len := dir.norm
          if 1e-10 < len then
            ((fun j => if j = nearest.1.toNat
                then (acc1.1 j).add (Vec2.smul (1 / len) dir) else acc1.1 j),
             (fun j => if j = nearest.1.toNat then acc1.2.1 j + 1 else acc1.2.1 j),
             acc1.2.2)
          else acc1
        else acc1
    else acc) ((fun _ => ⟨0, 0⟩), (fun _ => 0), 0)

/-- The parent chosen for a newly grown node (lines 342-376): for Closed
venation, the first nearby vein that is neither the growing vein nor related
to it by ancestry (the loop merge); otherwise the growing vein itself. -/
def grow_parent (params : VenationParams) (veins : List VeinNode)
    (hash : SpatialHash2D) (new_pos : Vec2) (vi : ℕ) : ℤ :=
  if params.type = VenationType.Closed then
    match (hash.query_radius new_pos (params.growth_step_size * 3)).find?
        (fun nid => decide (nid ≠ vi) &&
          !(is_ancestor veins (vi : ℤ) (nid : ℤ)) &&
          !(is_ancestor veins (nid : ℤ) (vi : ℤ))) with
    | some nid => (nid : ℤ)
    | none => (vi : ℤ)
  else (vi : ℤ)

/-- The growth pass of one Runions iteration (lines 321-377): for each vein
index below `old_size` with attractions, normalize the mean direction, step by
`growth_step_size`, check the contour, and append the new node to veins and
hash with `grow_parent` as its parent. -/
def grow_step (params : VenationParams) (contour : List Vec2)
    (dirs : ℕ → Vec2) (counts : ℕ → ℕ)
    (acc : VenationState × Bool) (vi : ℕ) : VenationState × Bool :=
  if counts vi = 0 then acc
  else
    let avg0 := Vec2.smul (1 / (counts vi : ℝ)) (dirs vi)
    let len := avg0.norm
    if len < 1e-10 then acc
    else
      let avg := Vec2.smul (1 / len) avg0
      let new_pos := (acc.1.veins.getD vi defaultVein).position.add
        (Vec2.smul params.growth_step_size avg)
      if ¬ (point_in_contour new_pos contour = true) then acc
      else
        let parent := grow_parent params acc.1.veins acc.1.hash new_pos vi
        let new_idx := acc.1.veins.length
        ({ veins := acc.1.veins ++ [⟨new_pos, parent, 1⟩],
           auxins := acc.1.auxins,
           hash := acc.1.hash.insert new_idx new_pos }, true)

def grow_veins (params : VenationParams) (contour : List Vec2)
    (dirs : ℕ → Vec2) (counts : ℕ → ℕ) (old_size : ℕ)
    (st : VenationState) : VenationState × Bool :=
  (List.range old_size).foldl (grow_step params contour dirs counts) (st, false)

/-- The kill pass of one Runions iteration (lines 382-396): deactivate each
auxin within the effective kill distance of a node grown this iteration. -/
def kill_auxins (effective_kill : ℝ) (old_size : ℕ) (st : VenationState) :
    VenationState :=
  let kill_sq := effective_kill * effective_kill
  { st with auxins := st.auxins.map (fun a =>
      if a.active && ((st.veins.drop old_size).any (fun v =>
          decide ((a.position.sub v.position).squaredNorm ≤ kill_sq)))
      then { a with active := false } else a) }

/-- One Runions iteration (lines 275-397); the boolean is false when the loop
breaks (no active auxin or nothing grew). -/
def venation_iter (params : VenationParams) (contour : List Vec2)
    (st : VenationState) : VenationState × Bool :=
  if (accumulate_attractions params st).2.2 = 0 then (st, false)
  else if (grow_veins params contour (accumulate_attractions params st).1
      (accumulate_attractions params st).2.1 st.veins.length st).2 = true then
    (kill_auxins
      (if params.type = VenationType.Closed
        then params.kill_distance * 0.5 else params.kill_distance)
      st.veins.length
      (grow_veins params contour (accumulate_attractions params st).1
        (accumulate_attractions params st).2.1 st.veins.length st).1, true)
  else
    ((grow_veins params contour (accumulate_attractions params st).1
      (accumulate_attractions params st).2.1 st.veins.length st).1, false)

/-- The `for (iter = 0; iter < max_iterations; ...)` loop of `generate_veins`. -/
def venation_loop (params : VenationParams) (contour : List Vec2) :
    ℕ → VenationState → VenationState
  | 0, st => st
  | fuel + 1, st =>
    let step := venation_iter params contour st
    if step.2 = true then venation_loop params contour fuel step.1 else step.1

/-- The initial venation state (lines 224-269): the root vein node with
parent -1 and the spatial hash, padded by the attraction distance, holding the
root under id 0. -/
def init_state (params : VenationParams) (contour : List Vec2)
    (auxins : List Auxin) : VenationState :=
  let bb := contour_bbox contour
  let root_pos := venation_root params contour
  let pad : Vec2 := ⟨params.attraction_distance, params.attraction_distance⟩
  let hash0 := SpatialHash2D.init params.attraction_distance
    (bb.1.sub pad) (bb.2.add pad)
  ⟨[⟨root_pos, -1, 1⟩], auxins, hash0.insert 0 root_pos⟩

/-- The non-degenerate tail of `generate_veins`: run the Runions loop from the
initial state and finish with the pipe-model widths. -/
def venation_result (params : VenationParams) (contour : List Vec2)
    (auxins : List Auxin) : List VeinNode :=
  compute_pipe_widths
    (venation_loop params contour (max 0 params.max_iterations).toNat
      (init_state params contour auxins)).veins

/-- `VenationGenerator::generate_veins` (lines 214-403), with the draw stream
made explicit. -/
def generate_veins_with (params : VenationParams) (contour : List Vec2)
    (draws : ℕ → ℝ) : List VeinNode :=
  if contour.length < 3 ∨ params.vein_density ≤ 0 then []
  else if generate_auxin_sources params contour draws = [] then []
  else venation_result params contour (generate_auxin_sources params contour draws)

/-- `VenationGenerator::generate_veins`: the local `std::mt19937 rng(seed)` is
the seeded stream; no other source of randomness exists. -/
def generate_veins (params : VenationParams) (contour : List Vec2) :
    List VeinNode :=
  generate_veins_with params contour (rng_draw params.seed)

/-! ### Structural invariants of generate_veins -/

/-- The parent/position invariant of a vein list: the root (index 0) has
parent -1; every later node has a parent in [0, i-1] and a position strictly
inside the contour (even-odd rule). -/
def veins_wf (contour : List Vec2) (ns : List VeinNode) : Prop :=
  ∀ i, i < ns.length →
    (i = 0 → (ns.getD i defaultVein).parent = -1) ∧
    (1 ≤ i → 0 ≤ (ns.getD i defaultVein).parent ∧
      (ns.getD i defaultVein).parent < (i : ℤ) ∧
      point_in_contour (ns.getD i defaultVein).position contour = true)

/-- Every id stored in the spatial hash is a valid vein index. -/
def hash_ids_lt (h : SpatialHash2D) (n : ℕ) : Prop :=
  ∀ idx : ℤ, ∀ e ∈ h.cells idx, e.1 < n

def state_wf (contour : List Vec2) (st : VenationState) : Prop :=
  veins_wf contour st.veins ∧ hash_ids_lt st.hash st.veins.length

theorem query_radius_lt {h : SpatialHash2D} {n : ℕ} (hw : hash_ids_lt h n)
    (center : Vec2) (radius : ℝ) :
    ∀ id ∈ h.query_radius center radius, id < n := by
  intro id hid
  simp only [SpatialHash2D.query_radius, List.mem_flatMap, List.mem_filterMap] at hid
  obtain ⟨cy, _, cx, _, e, he, hif⟩ := hid
  by_cases hd : ((e.2.sub center).squaredNorm ≤ radius * radius)
  · rw [if_pos hd] at hif
    obtain rfl : e.1 = id := by simpa using hif
    exact hw _ e he
  · rw [if_neg hd] at hif
    simp at hif

theorem hash_ids_lt_insert {h : SpatialHash2D} {n : ℕ} (hw : hash_ids_lt h n)
    (pos : Vec2) : hash_ids_lt (h.insert n pos) (n + 1) := by
  intro idx e he
  simp only [SpatialHash2D.insert] at he
  by_cases hidx : idx = h.cell_index (h.to_cell pos).1 (h.to_cell pos).2
  · rw [if_pos hidx] at he
    rcases List.mem_append.mp he with h1 | h2
    · exact Nat.lt_succ_of_lt (hw _ e h1)
    · simp only [List.mem_singleton] at h2
      rw [h2]
      exact Nat.lt_succ_self n
  · rw [if_neg hidx] at he
    exact Nat.lt_succ_of_lt (hw _ e he)

theorem getD_append_lt {ns : List VeinNode} {x : VeinNode} {i : ℕ}
    (h : i < ns.length) : (ns ++ [x]).getD i defaultVein = ns.getD i defaultVein := by
  rw [List.getD_eq_getElem?_getD, List.getD_eq_getElem?_getD,
    List.getElem?_append_left h]

theorem getD_append_last (ns : List VeinNode) (x : VeinNode) :
    (ns ++ [x]).getD ns.length defaultVein = x := by
  rw [List.getD_eq_getElem?_getD]
  rw [List.getElem?_append_right (le_refl _)]
  simp


theorem grow_parent_bound (params : VenationParams) (veins : List VeinNode)
    (hash : SpatialHash2D) (new_pos : Vec2) (vi : ℕ)
    (hw : hash_ids_lt hash veins.length) (hvi : vi < veins.length) :
    0 ≤ grow_parent params veins hash new_pos vi ∧
      grow_parent params veins hash new_pos vi < (veins.length : ℤ) := by
  unfold grow_parent
  by_cases hc : params.type = VenationType.Closed
  · rw [if_pos hc]
    rcases hm : (hash.query_radius new_pos (params.growth_step_size * 3)).find?
        (fun nid => decide (nid ≠ vi) &&
          !(is_ancestor veins (vi : ℤ) (nid : ℤ)) &&
          !(is_ancestor veins (nid : ℤ) (vi : ℤ))) with _ | nid
    · refine ⟨?_, ?_⟩
      · show (0 : ℤ) ≤ (vi : ℤ)
        exact Int.ofNat_nonneg vi
      · show (vi : ℤ) < (veins.length : ℤ)
        exact_mod_cast hvi
    · have hmem := List.mem_of_find?_eq_some hm
      have hlt := query_radius_lt hw new_pos (params.growth_step_size * 3) nid hmem
      refine ⟨?_, ?_⟩
      · show (0 : ℤ) ≤ (nid : ℤ)
        exact Int.ofNat_nonneg nid
      · show (nid : ℤ) < (veins.length : ℤ)
        exact_mod_cast hlt
  · rw [if_neg hc]
    exact ⟨Int.ofNat_nonneg vi, by exact_mod_cast hvi⟩

theorem grow_step_wf (params : VenationParams) (contour : List Vec2)
    (dirs : ℕ → Vec2) (counts : ℕ → ℕ) (acc : VenationState × Bool) (vi : ℕ)
    (hvi : vi < acc.1.veins.length) (hwf : state_wf contour acc.1) :
    state_wf contour (grow_step params contour dirs counts acc vi).1 ∧
    acc.1.veins.length ≤ (grow_step params contour dirs counts acc vi).1.veins.length := by
  simp only [grow_step]
  by_cases h0 : counts vi = 0
  · rw [if_pos h0]; exact ⟨hwf, le_refl _⟩
  · rw [if_neg h0]
    by_cases h1 : (Vec2.smul (1 / (counts vi : ℝ)) (dirs vi)).norm < 1e-10
    · rw [if_pos h1]; exact ⟨hwf, le_refl _⟩
    · rw [if_neg h1]
      by_cases h2 : ¬ (point_in_contour
          ((acc.1.veins.getD vi defaultVein).position.add
            (Vec2.smul params.growth_step_size
              (Vec2.smul (1 / (Vec2.smul (1 / (counts vi : ℝ)) (dirs vi)).norm)
                (Vec2.smul (1 / (counts vi : ℝ)) (dirs vi))))) contour = true)
      · rw [if_pos h2]; exact ⟨hwf, le_refl _⟩
      · rw [if_neg h2]
        push_neg at h2
        refine ⟨⟨?_, ?_⟩, ?_⟩
        · intro i hlen
          simp only [List.length_append, List.length_singleton] at hlen
          by_cases hi : i < acc.1.veins.length
          · have hold := hwf.1 i hi
            rw [getD_append_lt hi]
            exact hold
          · have hieq : i = acc.1.veins.length := by omega
            subst hieq
            rw [getD_append_last]
            have hpb := grow_parent_bound params acc.1.veins acc.1.hash
              ((acc.1.veins.getD vi defaultVein).position.add
                (Vec2.smul params.growth_step_size
                  (Vec2.smul (1 / (Vec2.smul (1 / (counts vi : ℝ)) (dirs vi)).norm)
                    (Vec2.smul (1 / (counts vi : ℝ)) (dirs vi))))) vi hwf.2 hvi
            constructor
            · intro hz
              exfalso
              omega
            · intro _
              exact ⟨hpb.1, hpb.2, h2⟩
        · simp only [List.length_append, List.length_singleton]
          exact hash_ids_lt_insert hwf.2 _
        · simp only [List.length_append, List.length_singleton]
          omega

theorem grow_fold_wf (params : VenationParams) (contour : List Vec2)
    (dirs : ℕ → Vec2) (counts : ℕ → ℕ) :
    ∀ (l : List ℕ) (acc : VenationState × Bool),
      (∀ vi ∈ l, vi < acc.1.veins.length) →
      state_wf contour acc.1 →
      state_wf contour (l.foldl (grow_step params contour dirs counts) acc).1 ∧
      acc.1.veins.length ≤
        (l.foldl (grow_step params contour dirs counts) acc).1.veins.length := by
  intro l
  induction l with
  | nil => intro acc _ hwf; exact ⟨hwf, le_refl _⟩
  | cons v rest ih =>
      intro acc hmem hwf
      simp only [List.foldl_cons]
      have hv : v < acc.1.veins.length := hmem v (by simp)
      have hstep := grow_step_wf params contour dirs counts acc v hv hwf
      have hrest : ∀ vi ∈ rest,
          vi < (grow_step params contour dirs counts acc v).1.veins.length := by
        intro vi hvi
        exact lt_of_lt_of_le (hmem vi (by simp [hvi])) hstep.2
      have hres := ih (grow_step params contour dirs counts acc v) hrest hstep.1
      exact ⟨hres.1, le_trans hstep.2 hres.2⟩

theorem grow_veins_wf (params : VenationParams) (contour : List Vec2)
    (dirs : ℕ → Vec2) (counts : ℕ → ℕ) (st : VenationState)
    (hwf : state_wf contour st) :
    state_wf contour (grow_veins params contour dirs counts st.veins.length st).1 := by
  unfold grow_veins
  exact (grow_fold_wf params contour dirs counts (List.range st.veins.length) (st, false)
    (by intro vi hvi; simpa using List.mem_range.mp hvi) hwf).1

theorem kill_auxins_wf (contour : List Vec2) (k : ℝ) (o : ℕ) (st : VenationState)
    (hwf : state_wf contour st) : state_wf contour (kill_auxins k o st) := hwf

theorem venation_iter_wf (params : VenationParams) (contour : List Vec2)
    (st : VenationState) (hwf : state_wf contour st) :
    state_wf contour (venation_iter params contour st).1 := by
  unfold venation_iter
  by_cases h0 : (accumulate_attractions params st).2.2 = 0
  · rw [if_pos h0]; exact hwf
  · rw [if_neg h0]
    have hg := grow_veins_wf params contour (accumulate_attractions params st).1
      (accumulate_attractions params st).2.1 st hwf
    by_cases h1 : (grow_veins params contour (accumulate_attractions params st).1
        (accumulate_attractions params st).2.1 st.veins.length st).2 = true
    · rw [if_pos h1]
      exact kill_auxins_wf contour _ _ _ hg
    · rw [if_neg h1]
      exact hg

theorem venation_loop_wf (params : VenationParams) (contour : List Vec2) :
    ∀ (fuel : ℕ) (st : VenationState), state_wf contour st →
      state_wf contour (venation_loop params contour fuel st) := by
  intro fuel
  induction fuel with
  | zero => intro st h; exact h
  | succ n ih =>
      intro st h
      simp only [venation_loop]
      by_cases hc : (venation_iter params contour st).2 = true
      · rw [if_pos hc]
        exact ih _ (venation_iter_wf params contour st h)
      · rw [if_neg hc]
        exact venation_iter_wf params contour st h

theorem init_state_wf (params : VenationParams) (contour : List Vec2)
    (auxins : List Auxin) : state_wf contour (init_state params contour auxins) := by
  constructor
  · intro i hi
    have hi0 : i = 0 := by
      simp only [init_state, List.length_singleton] at hi
      omega
    subst hi0
    constructor
    · intro _
      rfl
    · intro hcon
      omega
  · have h0 : hash_ids_lt (SpatialHash2D.init params.attraction_distance
        (((contour_bbox contour).1).sub
          ⟨params.attraction_distance, params.attraction_distance⟩)
        (((contour_bbox contour).2).add
          ⟨params.attraction_distance, params.attraction_distance⟩)) 0 := by
      intro idx e he
      simp [SpatialHash2D.init] at he
    exact hash_ids_lt_insert h0 _

theorem cpw_length (ns : List VeinNode) :
    (compute_pipe_widths ns).length = ns.length := by
  unfold compute_pipe_widths
  by_cases h : ns = []
  · rw [if_pos h]
  · rw [if_neg h]
    simp

theorem cpw_getD (ns : List VeinNode) (i : ℕ) (hi : i < ns.length) :
    ((compute_pipe_widths ns).getD i defaultVein).parent =
      (ns.getD i defaultVein).parent ∧
    ((compute_pipe_widths ns).getD i defaultVein).position =
      (ns.getD i defaultVein).position := by
  unfold compute_pipe_widths
  by_cases h : ns = []
  · subst h; simp at hi
  · rw [if_neg h]
    rw [List.getD_eq_getElem?_getD, List.getElem?_map, List.getElem?_range hi]
    simp

theorem cpw_wf (contour : List Vec2) (ns : List VeinNode)
    (hwf : veins_wf contour ns) : veins_wf contour (compute_pipe_widths ns) := by
  intro i hi
  rw [cpw_length] at hi
  have h := hwf i hi
  have hg := cpw_getD ns i hi
  rw [hg.1, hg.2]
  exact h

theorem venation_result_wf (params : VenationParams) (contour : List Vec2)
    (auxins : List Auxin) :
    veins_wf contour (venation_result params contour auxins) := by
  unfold venation_result
  exact cpw_wf contour _
    (venation_loop_wf params contour _ _ (init_state_wf params contour auxins)).1

theorem generate_veins_with_wf (params : VenationParams) (contour : List Vec2)
    (draws : ℕ → ℝ) :
    veins_wf contour (generate_veins_with params contour draws) := by
  unfold generate_veins_with
  by_cases h1 : contour.length < 3 ∨ params.vein_density ≤ 0
  · rw [if_pos h1]
    intro i hi
    simp at hi
  · rw [if_neg h1]
    by_cases h2 : generate_auxin_sources params contour draws = []
    · rw [if_pos h2]
      intro i hi
      simp at hi
    · rw [if_neg h2]
      exact venation_result_wf params contour _

/-- Follow parent links k times (stopping at -1 or at an out-of-range index):
the walk named in the spec's vein-set invariant. -/
def follow_parent (veins : List VeinNode) : ℕ → ℤ → ℤ
  | 0, cur => cur
  | k + 1, cur =>
    if 0 ≤ cur ∧ cur.toNat < veins.length then
      follow_parent veins k ((veins.getD cur.toNat defaultVein).parent)
    else cur

theorem follow_parent_neg (veins : List VeinNode) :
    ∀ (k : ℕ) (cur : ℤ), cur < 0 → follow_parent veins k cur = cur := by
  intro k
  induction k with
  | zero => intro cur _; rfl
  | succ n ih =>
      intro cur hneg
      simp only [follow_parent]
      rw [if_neg (by omega)]

theorem follow_parent_reaches_root {contour : List Vec2} {ns : List VeinNode}
    (hwf : veins_wf contour ns) :
    ∀ (k : ℕ) (cur : ℕ), cur < k → cur < ns.length →
      follow_parent ns k (cur : ℤ) = -1 := by
  intro k
  induction k with
  | zero => intro cur hk _; omega
  | succ n ih =>
      intro cur hk hlen
      simp only [follow_parent]
      rw [if_pos (by constructor <;> simp [hlen])]
      have hcast : ((cur : ℤ)).toNat = cur := Int.toNat_natCast cur
      rw [hcast]
      have h := hwf cur hlen
      by_cases h0 : cur = 0
      · subst h0
        rw [(h.1 rfl)]
        exact follow_parent_neg ns n (-1) (by norm_num)
      · have h1 := h.2 (by omega)
        have hpn : (ns.getD cur defaultVein).parent =
            (((ns.getD cur defaultVein).parent.toNat : ℕ) : ℤ) :=
          (Int.toNat_of_nonneg h1.1).symm
        rw [hpn]
        apply ih
        · omega
        · omega

/-- The decidable per-index check of the spec's vein-set invariant: parent in
[-1, i-1], parent -1 exactly at the root, parent nonnegative after it, and the
parent walk reaching -1 within length steps. -/
def check_vein_parents (ns : List VeinNode) : Bool :=
  (List.range ns.length).all (fun i =>
    decide (-1 ≤ (ns.getD i defaultVein).parent ∧
      (ns.getD i defaultVein).parent < (i : ℤ) ∧
      (i = 0 → (ns.getD i defaultVein).parent = -1) ∧
      (1 ≤ i → 0 ≤ (ns.getD i defaultVein).parent) ∧
      follow_parent ns ns.length (i : ℤ) = -1))

theorem check_vein_parents_of_wf {contour : List Vec2} {ns : List VeinNode}
    (hwf : veins_wf contour ns) : check_vein_parents ns = true := by
  rw [check_vein_parents, List.all_eq_true]
  intro i hi
  have hi' : i < ns.length := List.mem_range.mp hi
  have h := hwf i hi'
  have hfollow := follow_parent_reaches_root hwf ns.length i hi' hi'
  rw [decide_eq_true_eq]
  by_cases h0 : i = 0
  · subst h0
    have hp := h.1 rfl
    refine ⟨by rw [hp], by rw [hp]; norm_num, fun _ => hp, ?_, hfollow⟩
    intro hcon
    omega
  · have h1 := h.2 (by omega)
    exact ⟨by omega, h1.2.1, fun h00 => absurd h00 h0, fun _ => h1.1, hfollow⟩

/-- C7: for every parameter setting and contour, the vein list returned by
generate_veins satisfies node[0].parent = -1, node[i].parent ∈ [0, i-1] for
i ≥ 1 (hence in [-1, i-1] for all i), and following parent links from any node
reaches -1 in at most length-many steps. -/
theorem generate_veins_parent_invariant (params : VenationParams)
    (contour : List Vec2) :
    check_vein_parents (generate_veins params contour) = true :=
  check_vein_parents_of_wf
    (generate_veins_with_wf params contour (rng_draw params.seed))

/-- C10: every vein node returned by generate_veins other than the root
(index 0) has a position strictly inside the contour under the even-odd
point-in-polygon rule. -/
theorem generate_veins_nodes_inside (params : VenationParams)
    (contour : List Vec2) :
    ((generate_veins params contour).drop 1).all
      (fun n => point_in_contour n.position contour) = true := by
  have hwf := generate_veins_with_wf params contour (rng_draw params.seed)
  rw [List.all_eq_true]
  intro x hx
  rw [List.mem_iff_getElem] at hx
  obtain ⟨k, hk, hget⟩ := hx
  have hk' : 1 + k < (generate_veins params contour).length := by
    rw [List.length_drop] at hk
    omega
  have hx' : (generate_veins params contour)[1 + k] = x := by
    rw [← hget, List.getElem_drop]
  have hgd : (generate_veins params contour).getD (1 + k) defaultVein = x := by
    rw [List.getD_eq_getElem _ _ hk']
    exact hx'
  have hgd' : (generate_veins_with params contour
      (rng_draw params.seed)).getD (1 + k) defaultVein = x := hgd
  have h := hwf (1 + k) hk'
  have hpos := (h.2 (by omega)).2.2
  rw [hgd'] at hpos
  exact hpos

/-- C8: generate_veins is deterministic — two parameter records that agree on
all seven fields (type, vein_density, kill_distance, growth_step_size,
attraction_distance, max_iterations, seed) yield identical vein lists on the
same contour; the embedded function depends on nothing else (the C++ draws
all randomness from the local `std::mt19937 rng(seed)`). -/
theorem generate_veins_deterministic (p q : VenationParams) (contour : List Vec2)
    (h1 : p.type = q.type) (h2 : p.vein_density = q.vein_density)
    (h3 : p.kill_distance = q.kill_distance)
    (h4 : p.growth_step_size = q.growth_step_size)
    (h5 : p.attraction_distance = q.attraction_distance)
    (h6 : p.max_iterations = q.max_iterations) (h7 : p.seed = q.seed) :
    generate_veins p contour = generate_veins q contour := by
  obtain ⟨t1, d1, k1, g1, a1, m1, s1⟩ := p
  obtain ⟨t2, d2, k2, g2, a2, m2, s2⟩ := q
  simp only at h1 h2 h3 h4 h5 h6 h7
  subst h1; subst h2; subst h3; subst h4; subst h5; subst h6; subst h7
  rfl

/-- C8 witness: two syntactically different but field-equal parameter records
give the same veins. -/
theorem generate_veins_deterministic_witness :
    generate_veins ⟨VenationType.Open, 800, 0.03, 0.01, 0.08, 300, 42⟩ [] =
      generate_veins ⟨VenationType.Open, 800, 0.03, 0.01, 0.08, 300, 41 + 1⟩ [] :=
  generate_veins_deterministic _ _ [] rfl rfl rfl rfl rfl rfl (by norm_num)

/-- C6: on degenerate input each public operation returns an empty result:
generate_veins on a contour with fewer than 3 points, generate_card on a
source mesh with fewer than 3 vertices, and generate_billboard_cloud on an
empty positions list or num_planes < 1. -/
theorem degenerate_inputs_empty :
    (∀ (params : VenationParams) (contour : List Vec2), contour.length < 3 →
      generate_veins params contour = []) ∧
    (∀ source : Mesh, source.vertices.length < 3 →
      generate_card source = ({} : Mesh)) ∧
    (∀ (positions : List Vec3) (n : ℤ), positions = [] ∨ n < 1 →
      generate_billboard_cloud positions n = ({} : Mesh)) := by
  refine ⟨?_, ?_, ?_⟩
  · intro params contour h
    unfold generate_veins generate_veins_with
    rw [if_pos (Or.inl h)]
  · intro source h
    unfold generate_card
    rw [if_pos h]
  · intro positions n h
    unfold generate_billboard_cloud
    rw [if_pos h]

/-- C6 witness: a 2-point contour, a 2-vertex mesh and an empty positions list
each produce the empty result. -/
theorem degenerate_inputs_empty_witness :
    generate_veins ⟨VenationType.Open, 800, 0.03, 0.01, 0.08, 300, 42⟩
      [⟨0, 0⟩, ⟨1, 0⟩] = [] ∧
    generate_card { vertices := [⟨0, 0, 0⟩, ⟨1, 0, 0⟩] } = ({} : Mesh) ∧
    generate_billboard_cloud [] 5 = ({} : Mesh) :=
  ⟨degenerate_inputs_empty.1 _ _ (by norm_num),
   degenerate_inputs_empty.2.1 _ (by norm_num),
   degenerate_inputs_empty.2.2 [] 5 (Or.inl rfl)⟩

/-! ## LeafShapeGenerator
(src/m_tree/source/leaf/LeafShapeGenerator.cpp)

Only the fields read by `generate` are embedded; the venation fields and the
unused `seed`/`vein_displacement` members do not influence it. -/

inductive MarginType where
  | Entire
  | Serrate
  | Dentate
  | Crenate
  | Lobed
deriving DecidableEq

structure LeafShapeGenerator where
  m : ℝ
  a : ℝ
  b : ℝ
  n1 : ℝ
  n2 : ℝ
  n3 : ℝ
  aspect_ratio : ℝ
  margin_type : MarginType
  tooth_count : ℤ
  tooth_depth : ℝ
  tooth_sharpness : ℝ
  asymmetry_seed : ℤ
  midrib_curvature : ℝ
  cross_curvature : ℝ
  edge_curl : ℝ
  contour_resolution : ℤ

/-- `LeafShapeGenerator::superformula_radius` (lines 12-25). -/
def superformula_radius (g : LeafShapeGenerator) (theta effective_n1 : ℝ) : ℝ :=
  let ct := Real.cos (g.m * theta / 4)
  let st := Real.sin (g.m * theta / 4)
  let term1 := |ct / g.a| ^ g.n2
  let term2 := |st / g.b| ^ g.n3
  if term1 + term2 < 1e-10 then 1
  else (term1 + term2) ^ (-(1 / effective_n1))

/-- `res = max(contour_resolution, 8)` from `sample_contour` (line 29). -/
def sample_res (g : LeafShapeGenerator) : ℕ := (max g.contour_resolution 8).toNat

/-- `clamped_n1` from `sample_contour` (line 35). -/
def sample_clamped_n1 (g : LeafShapeGenerator) : ℝ :=
  if |g.n1| < 0.001 then 0.001 else g.n1

/-- One base sample of `sample_contour` (lines 39-43):
`(r cos θ · aspect_ratio, r sin θ)`. -/
def sample_point (g : LeafShapeGenerator) (theta : ℝ) : Vec2 :=
  let r := superformula_radius g theta (sample_clamped_n1 g)
  ⟨r * Real.cos theta * g.aspect_ratio, r * Real.sin theta⟩

/-- The base contour points of `sample_contour` (lines 37-44), before
adaptive refinement. -/
def base_points (g : LeafShapeGenerator) : List Vec2 :=
  (List.range (sample_res g)).map
    (fun (i : ℕ) => sample_point g (2 * Real.pi * (i : ℝ) / (sample_res g : ℝ)))

/-- The curvature test of the adaptive refinement (lines 50-65): the
normalized tangents around point i have dot product below 0.95. -/
def refine_needed (pts : List Vec2) (i : ℕ) : Prop :=
  let prev := pts.getD ((i + pts.length - 1) % pts.length) ⟨0, 0⟩
  let next := pts.getD ((i + 1) % pts.length) ⟨0, 0⟩
  let cur := pts.getD i ⟨0, 0⟩
  ((cur.sub prev).normalized).dot ((next.sub cur).normalized) < 0.95

/-- `LeafShapeGenerator::sample_contour` (lines 27-76): each base point,
followed by the superformula midpoint where the curvature test fires. -/
def sample_contour (g : LeafShapeGenerator) : List Vec2 :=
  let pts := base_points g
  (List.range pts.length).flatMap (fun i =>
    pts.getD i ⟨0, 0⟩ ::
      (if refine_needed pts i then
        [sample_point g (2 * Real.pi * ((i : ℝ) + 0.5) / (sample_res g : ℝ))]
      else []))

/-- C `atan2(y, x)`, via the complex argument (range (-π, π]). -/
def atan2R (y x : ℝ) : ℝ := Complex.arg ⟨x, y⟩

/-- The per-point radius modulation of `LeafShapeGenerator::apply_margin`
(lines 91-145), given the asymmetry draw for this point. -/
def margin_point (g : LeafShapeGenerator) (pt : Vec2) (asym : ℝ) : Vec2 :=
  let r := pt.norm
  let theta0 := atan2R pt.y pt.x
  let theta := if theta0 < 0 then theta0 + 2 * Real.pi else theta0
  let t := theta * (g.tooth_count : ℝ) / (2 * Real.pi)
  let frac := t - ⌊t⌋
  let depth := g.tooth_depth * (1 + asym)
  let modv := match g.margin_type with
    | MarginType.Serrate =>
        depth * (if frac < g.tooth_sharpness then frac / g.tooth_sharpness
          else (1 - frac) / (1 - g.tooth_sharpness))
    | MarginType.Dentate => depth * (1 - 2 * |frac - 0.5|)
    | MarginType.Crenate => depth * 0.5 * (1 + Real.sin (2 * Real.pi * frac))
    | MarginType.Lobed => depth * 0.5 * (1 + Real.cos (2 * Real.pi * frac))
    | MarginType.Entire => 0
  let new_r := r * (1 + modv)
  ⟨new_r * Real.cos theta, new_r * Real.sin theta⟩

/-- One step of the `apply_margin` loop; the second component is the next
draw index (a draw is consumed only when the point is non-degenerate and
`asymmetry_seed ≠ 0`).  The uniform draw in [-0.3, 0.3] is the spec-modelled
seeded stream mapped affinely. -/
def margin_step (g : LeafShapeGenerator) (acc : List Vec2 × ℕ) (pt : Vec2) :
    List Vec2 × ℕ :=
  if pt.norm < 1e-10 then (acc.1 ++ [pt], acc.2)
  else if g.asymmetry_seed ≠ 0 then
    (acc.1 ++ [margin_point g pt (-0.3 + 0.6 * rng_draw g.asymmetry_seed acc.2)],
     acc.2 + 1)
  else (acc.1 ++ [margin_point g pt 0], acc.2)

/-- `LeafShapeGenerator::apply_margin` (lines 78-148). -/
def apply_margin (g : LeafShapeGenerator) (contour : List Vec2) : List Vec2 :=
  if g.margin_type = MarginType.Entire ∨ g.tooth_count ≤ 0 then contour
  else (contour.foldl (margin_step g) ([], 0)).1

/-- `LeafShapeGenerator::cross2d` (lines 150-153). -/
def cross2d (o a b : Vec2) : ℝ :=
  (a.x - o.x) * (b.y - o.y) - (a.y - o.y) * (b.x - o.x)

/-- `LeafShapeGenerator::point_in_triangle` (lines 155-166). -/
def point_in_triangle (p a b c : Vec2) : Prop :=
  ¬(((cross2d p a b < 0 ∨ cross2d p b c < 0 ∨ cross2d p c a < 0)) ∧
    ((0 < cross2d p a b ∨ 0 < cross2d p b c ∨ 0 < cross2d p c a)))

/-- `LeafShapeGenerator::is_ear` (lines 168-190). -/
def is_ear (poly : List Vec2) (prev curr next : ℕ) : Prop :=
  let a := poly.getD prev ⟨0, 0⟩
  let b := poly.getD curr ⟨0, 0⟩
  let c := poly.getD next ⟨0, 0⟩
  0 < cross2d a b c ∧
    ∀ i, i < poly.length → i ≠ prev → i ≠ curr → i ≠ next →
      ¬ point_in_triangle (poly.getD i ⟨0, 0⟩) a b c

/-- The `for (i ...)` ear scan inside the clipping loop (lines 230-249):
index of the first ear, if any. -/
def find_ear (poly : List Vec2) : Option ℕ :=
  (List.range poly.length).find? (fun i =>
    decide (is_ear poly ((i + poly.length - 1) % poly.length) i
      ((i + 1) % poly.length)))

/-- The `while (poly.size() > 2)` ear-clipping loop of
`LeafShapeGenerator::triangulate` (lines 227-279), with the centroid-fan
fallback when no ear is found; the fuel bounds the iterations (one vertex is
removed per round, so `poly.length` rounds suffice). -/
def ear_clip_loop : ℕ → List Vec2 → List ℕ → Mesh → Mesh
  | 0, _, _, mesh => mesh
  | fuel + 1, poly, indices, mesh =>
    if poly.length ≤ 2 then mesh
    else
      match find_ear poly with
      | some i =>
          let prev := (i + poly.length - 1) % poly.length
          let next := (i + 1) % poly.length
          ear_clip_loop fuel (poly.eraseIdx i) (indices.eraseIdx i)
            { mesh with
              polygons := mesh.polygons ++
                [(indices.getD prev 0, indices.getD i 0,
                  indices.getD next 0, indices.getD next 0)],
              uv_loops := mesh.uv_loops ++ [(0, 0, 0, 0)] }
      | none =>
          let centroid := Vec2.smul (1 / (poly.length : ℝ))
            (poly.foldl Vec2.add ⟨0, 0⟩)
          let ci := mesh.vertices.length
          { mesh with
            vertices := mesh.vertices ++ [⟨centroid.x, centroid.y, 0⟩],
            polygons := mesh.polygons ++ (List.range poly.length).map (fun k =>
              (indices.getD k 0, indices.getD ((k + 1) % poly.length) 0, ci, ci)),
            uv_loops := mesh.uv_loops ++
              (List.range poly.length).map (fun _ => (0, 0, 0, 0)) }

/-- `LeafShapeGenerator::triangulate` (lines 192-282): push the contour as
z = 0 vertices, force counter-clockwise winding via the signed area, and
ear-clip. -/
def triangulate (contour : List Vec2) : Mesh :=
  let mesh0 : Mesh := { vertices := contour.map (fun p => ⟨p.x, p.y, 0⟩) }
  let signed_area := (List.range contour.length).foldl (fun sa i =>
    let pi0 := contour.getD i ⟨0, 0⟩
    let pn := contour.getD ((i + 1) % contour.length) ⟨0, 0⟩
    sa + pi0.x * pn.y - pn.x * pi0.y) 0
  let indices := if signed_area < 0 then (List.range contour.length).reverse
    else List.range contour.length
  let poly := indices.map (fun idx => contour.getD idx ⟨0, 0⟩)
  ear_clip_loop contour.length poly indices mesh0

/-- `LeafShapeGenerator::compute_uvs` (lines 350-382): planar projection of
the contour bounding box to [0,1]², uv_loops mirroring polygons. -/
def compute_uvs (mesh : Mesh) (contour : List Vec2) : Mesh :=
  if contour = [] ∨ mesh.vertices = [] then mesh
  else
    let bb := contour_bbox contour
    let width := bb.2.x - bb.1.x
    let height := bb.2.y - bb.1.y
    { mesh with
      uvs := mesh.vertices.map (fun v =>
        ⟨clampR (if 1e-10 < width then (v.x - bb.1.x) / width else 0.5) 0 1,
         clampR (if 1e-10 < height then (v.y - bb.1.y) / height else 0.5) 0 1⟩),
      uv_loops := mesh.polygons }

/-- The per-vertex minimum point-to-segment distance to the contour
(lines 307-323). -/
def edge_distance (contour : List Vec2) (pt : Vec2) : ℝ :=
  (List.range contour.length).foldl (fun acc ci =>
    let a := contour.getD ci ⟨0, 0⟩
    let b := contour.getD ((ci + 1) % contour.length) ⟨0, 0⟩
    let seg := b.sub a
    let seg_len := seg.norm
    if seg_len < 1e-10 then acc
    else
      let t := clampR (((pt.sub a).dot seg) / (seg_len * seg_len)) 0 1
      let closest := a.add (Vec2.smul t seg)
      min acc ((pt.sub closest).norm)) 1e10

/-- The z deformation of one vertex (lines 326-347). -/
def deform_z (g : LeafShapeGenerator) (contour : List Vec2)
    (min_y center_x width height : ℝ) (v : Vec3) : ℝ :=
  let nx := (v.x - center_x) / (width * 0.5)
  let ny := (v.y - min_y) / height
  let max_edge_dist := width * 0.5
  let edge_factor := 1 - clampR
    (edge_distance contour ⟨v.x, v.y⟩ / (max_edge_dist * 0.3)) 0 1
  g.midrib_curvature * ny * ny * 0.5 + g.cross_curvature * nx * nx * 0.3 +
    g.edge_curl * edge_factor * edge_factor * 0.2

/-- `LeafShapeGenerator::apply_deformation` (lines 284-348). -/
def apply_deformation (g : LeafShapeGenerator) (mesh : Mesh)
    (contour : List Vec2) : Mesh :=
  if mesh.vertices = [] then mesh
  else
    let bb := contour_bbox contour
    let width := bb.2.x - bb.1.x
    let height := bb.2.y - bb.1.y
    if width < 1e-10 ∨ height < 1e-10 then mesh
    else
      { mesh with vertices := mesh.vertices.map (fun v =>
          ⟨v.x, v.y,
           deform_z g contour bb.1.y ((bb.1.x + bb.2.x) * 0.5) width height v⟩) }

/-- `LeafShapeGenerator::generate` (lines 384-401): clamp n1 sign-aware and
the resolution, then sample, margin, triangulate, uvs, deform. -/
def leaf_generate (g : LeafShapeGenerator) : Mesh :=
  let g1 : LeafShapeGenerator := { g with
    n1 := if |g.n1| < 0.001 then (if 0 ≤ g.n1 then 0.001 else -0.001) else g.n1,
    contour_resolution := max g.contour_resolution 8 }
  let contour0 := sample_contour g1
  let contour := apply_margin g1 contour0
  let mesh := triangulate contour
  let mesh1 := compute_uvs mesh contour
  apply_deformation g1 mesh1 contour

theorem base_points_length (g : LeafShapeGenerator) :
    (base_points g).length = sample_res g := by
  rw [base_points, List.length_map, List.length_range]

theorem base_points_getD (g : LeafShapeGenerator) (i : ℕ) (hi : i < sample_res g) :
    (base_points g).getD i ⟨0, 0⟩ =
      sample_point g (2 * Real.pi * (i : ℝ) / (sample_res g : ℝ)) := by
  rw [base_points, List.getD_eq_getElem?_getD, List.getElem?_map,
    List.getElem?_range hi]
  rfl

theorem base_point_mem_sample_contour (g : LeafShapeGenerator) (i : ℕ)
    (hi : i < sample_res g) :
    (base_points g).getD i ⟨0, 0⟩ ∈ sample_contour g := by
  simp only [sample_contour]
  rw [List.mem_flatMap]
  refine ⟨i, ?_, List.mem_cons_self _ _⟩
  rw [List.mem_range, base_points_length]
  exact hi

theorem flatMap_cons_length_ge {α β : Type} (l : List α) (f : α → List β)
    (h : ∀ a, 1 ≤ (f a).length) : l.length ≤ (l.flatMap f).length := by
  induction l with
  | nil => simp
  | cons x xs ih =>
      simp only [List.flatMap_cons, List.length_append, List.length_cons]
      have := h x
      omega

theorem sample_contour_length_ge (g : LeafShapeGenerator) :
    sample_res g ≤ (sample_contour g).length := by
  simp only [sample_contour]
  have h := flatMap_cons_length_ge (List.range (base_points g).length)
    (fun i => (base_points g).getD i ⟨0, 0⟩ ::
      (if refine_needed (base_points g) i then
        [sample_point g (2 * Real.pi * ((i : ℝ) + 0.5) / (sample_res g : ℝ))]
      else []))
    (fun a => by simp)
  calc sample_res g = (List.range (base_points g).length).length := by
        simp [base_points_length]
    _ ≤ _ := h

theorem margin_step_length (g : LeafShapeGenerator) (acc : List Vec2 × ℕ)
    (pt : Vec2) : ((margin_step g acc pt).1).length = acc.1.length + 1 := by
  unfold margin_step
  by_cases h1 : pt.norm < 1e-10
  · rw [if_pos h1]; simp
  · rw [if_neg h1]
    by_cases h2 : g.asymmetry_seed ≠ 0
    · rw [if_pos h2]; simp
    · rw [if_neg h2]; simp

theorem margin_fold_length (g : LeafShapeGenerator) :
    ∀ (l : List Vec2) (acc : List Vec2 × ℕ),
      ((l.foldl (margin_step g) acc).1).length = acc.1.length + l.length := by
  intro l
  induction l with
  | nil => intro acc; simp
  | cons x xs ih =>
      intro acc
      simp only [List.foldl_cons, List.length_cons]
      rw [ih, margin_step_length]
      omega

theorem apply_margin_length (g : LeafShapeGenerator) (contour : List Vec2) :
    (apply_margin g contour).length = contour.length := by
  unfold apply_margin
  by_cases h : g.margin_type = MarginType.Entire ∨ g.tooth_count ≤ 0
  · rw [if_pos h]
  · rw [if_neg h]
    rw [margin_fold_length]
    simp

theorem ear_clip_loop_vertices_le :
    ∀ (fuel : ℕ) (poly : List Vec2) (indices : List ℕ) (mesh : Mesh),
      mesh.vertices.length ≤ (ear_clip_loop fuel poly indices mesh).vertices.length := by
  intro fuel
  induction fuel with
  | zero => intro poly indices mesh; exact le_refl _
  | succ n ih =>
      intro poly indices mesh
      simp only [ear_clip_loop]
      by_cases h1 : poly.length ≤ 2
      · rw [if_pos h1]
      · rw [if_neg h1]
        rcases hf : find_ear poly with _ | i
        · simp
        · dsimp only
          refine le_trans (le_of_eq ?_) (ih _ _ _)
          rfl

theorem triangulate_vertices_ge (contour : List Vec2) :
    contour.length ≤ (triangulate contour).vertices.length := by
  simp only [triangulate]
  refine le_trans (le_of_eq ?_) (ear_clip_loop_vertices_le _ _ _ _)
  simp

theorem compute_uvs_vertices (mesh : Mesh) (contour : List Vec2) :
    (compute_uvs mesh contour).vertices = mesh.vertices := by
  simp only [compute_uvs]
  by_cases h : contour = [] ∨ mesh.vertices = []
  · rw [if_pos h]
  · rw [if_neg h]

theorem apply_deformation_length (g : LeafShapeGenerator) (mesh : Mesh)
    (contour : List Vec2) :
    (apply_deformation g mesh contour).vertices.length = mesh.vertices.length := by
  simp only [apply_deformation]
  by_cases h1 : mesh.vertices = []
  · rw [if_pos h1]
  · rw [if_neg h1]
    by_cases h2 : (contour_bbox contour).2.x - (contour_bbox contour).1.x < 1e-10 ∨
        (contour_bbox contour).2.y - (contour_bbox contour).1.y < 1e-10
    · rw [if_pos h2]
    · rw [if_neg h2]
      simp

/-- C5: the contour is sampled at res = max(contour_resolution, 8) angles
θᵢ = 2πi/res with |n1| clamped to at least 0.001; each radius follows the
superformula with the 1e-10 guard returning 1; each sample point is
(r cos θ · aspect_ratio, r sin θ) and appears in the returned contour; and
generate() with n1 = 0 produces a mesh with at least 4 vertices. -/
theorem leaf_contour_sampling_spec (g : LeafShapeGenerator) :
    sample_res g = (max g.contour_resolution 8).toNat ∧
    0.001 ≤ |sample_clamped_n1 g| ∧
    (base_points g).length = sample_res g ∧
    (∀ theta effective_n1 : ℝ,
      (|Real.cos (g.m * theta / 4) / g.a| ^ g.n2 +
          |Real.sin (g.m * theta / 4) / g.b| ^ g.n3 < 1e-10 →
        superformula_radius g theta effective_n1 = 1) ∧
      (¬(|Real.cos (g.m * theta / 4) / g.a| ^ g.n2 +
          |Real.sin (g.m * theta / 4) / g.b| ^ g.n3 < 1e-10) →
        superformula_radius g theta effective_n1 =
          (|Real.cos (g.m * theta / 4) / g.a| ^ g.n2 +
            |Real.sin (g.m * theta / 4) / g.b| ^ g.n3) ^ (-(1 / effective_n1)))) ∧
    (∀ i, i < sample_res g →
      (base_points g).getD i ⟨0, 0⟩ =
        (⟨superformula_radius g (2 * Real.pi * (i : ℝ) / (sample_res g : ℝ))
              (sample_clamped_n1 g) *
            Real.cos (2 * Real.pi * (i : ℝ) / (sample_res g : ℝ)) * g.aspect_ratio,
          superformula_radius g (2 * Real.pi * (i : ℝ) / (sample_res g : ℝ))
              (sample_clamped_n1 g) *
            Real.sin (2 * Real.pi * (i : ℝ) / (sample_res g : ℝ))⟩ : Vec2) ∧
      (base_points g).getD i ⟨0, 0⟩ ∈ sample_contour g) ∧
    (g.n1 = 0 → 4 ≤ (leaf_generate g).vertices.length) := by
  refine ⟨rfl, ?_, base_points_length g, ?_, ?_, ?_⟩
  · unfold sample_clamped_n1
    by_cases h : |g.n1| < 0.001
    · rw [if_pos h, abs_of_pos (by norm_num : (0 : ℝ) < 0.001)]
    · rw [if_neg h]
      linarith [not_lt.mp h]
  · intro theta effective_n1
    constructor
    · intro h
      simp only [superformula_radius]
      rw [if_pos h]
    · intro h
      simp only [superformula_radius]
      rw [if_neg h]
  · intro i hi
    exact ⟨base_points_getD g i hi, base_point_mem_sample_contour g i hi⟩
  · intro _
    simp only [leaf_generate]
    rw [apply_deformation_length, compute_uvs_vertices]
    refine le_trans ?_ (triangulate_vertices_ge _)
    rw [apply_margin_length]
    refine le_trans ?_ (sample_contour_length_ge _)
    simp only [sample_res]
    have h8 : (8 : ℤ) ≤ max (max g.contour_resolution 8) 8 := le_max_right _ _
    omega

/-- C5 witness: at the default-like parameters with n1 = 0, the clamped
exponent is at least 0.001 in magnitude, the first base sample appears in the
contour, and generate yields at least 4 vertices. -/
theorem leaf_contour_sampling_spec_witness :
    0.001 ≤ |sample_clamped_n1
      ⟨2, 1, 1, 0, 3, 3, 0.5, MarginType.Entire, 0, 0.1, 0.5, 0, 0, 0, 0, 8⟩| ∧
    (base_points
        ⟨2, 1, 1, 0, 3, 3, 0.5, MarginType.Entire, 0, 0.1, 0.5, 0, 0, 0, 0, 8⟩).getD 0
        ⟨0, 0⟩ ∈
      sample_contour
        ⟨2, 1, 1, 0, 3, 3, 0.5, MarginType.Entire, 0, 0.1, 0.5, 0, 0, 0, 0, 8⟩ ∧
    4 ≤ (leaf_generate
        ⟨2, 1, 1, 0, 3, 3, 0.5, MarginType.Entire, 0, 0.1, 0.5, 0, 0, 0, 0, 8⟩).vertices.length := by
  refine ⟨(leaf_contour_sampling_spec _).2.1, ?_, (leaf_contour_sampling_spec _).2.2.2.2.2 rfl⟩
  exact ((leaf_contour_sampling_spec _).2.2.2.2.1 0 (by decide)).2

theorem ear_clip_loop_z_zero :
    ∀ (fuel : ℕ) (poly : List Vec2) (indices : List ℕ) (mesh : Mesh),
      (∀ v ∈ mesh.vertices, v.z = 0) →
      ∀ v ∈ (ear_clip_loop fuel poly indices mesh).vertices, v.z = 0 := by
  intro fuel
  induction fuel with
  | zero => intro _ _ mesh h; exact h
  | succ n ih =>
      intro poly indices mesh h
      simp only [ear_clip_loop]
      by_cases h1 : poly.length ≤ 2
      · rw [if_pos h1]; exact h
      · rw [if_neg h1]
        rcases hf : find_ear poly with _ | i
        · dsimp only
          intro v hv
          rcases List.mem_append.mp hv with h2 | h3
          · exact h v h2
          · simp only [List.mem_singleton] at h3
            rw [h3]
        · dsimp only
          refine ih _ _ _ ?_
          exact h

theorem triangulate_z_zero (contour : List Vec2) :
    ∀ v ∈ (triangulate contour).vertices, v.z = 0 := by
  simp only [triangulate]
  apply ear_clip_loop_z_zero
  intro v hv
  simp only [List.mem_map] at hv
  obtain ⟨p, _, hp⟩ := hv
  rw [← hp]

theorem apply_deformation_z_zero (g : LeafShapeGenerator) (mesh : Mesh)
    (contour : List Vec2)
    (h1 : g.midrib_curvature = 0) (h2 : g.cross_curvature = 0)
    (h3 : g.edge_curl = 0)
    (hz : ∀ v ∈ mesh.vertices, v.z = 0) :
    ∀ v ∈ (apply_deformation g mesh contour).vertices, v.z = 0 := by
  simp only [apply_deformation]
  by_cases hA : mesh.vertices = []
  · rw [if_pos hA]; exact hz
  · rw [if_neg hA]
    by_cases hB : (contour_bbox contour).2.x - (contour_bbox contour).1.x < 1e-10 ∨
        (contour_bbox contour).2.y - (contour_bbox contour).1.y < 1e-10
    · rw [if_pos hB]; exact hz
    · rw [if_neg hB]
      intro v hv
      simp only [List.mem_map] at hv
      obtain ⟨u, _, hmap⟩ := hv
      rw [← hmap]
      show deform_z g contour _ _ _ _ u = 0
      simp only [deform_z, h1, h2, h3]
      ring

/-- C9: with midrib_curvature, cross_curvature and edge_curl all zero, every
vertex of the mesh returned by generate has |z| ≤ 1e-6 (it is exactly 0);
otherwise each vertex's z after apply_deformation equals
midrib·ny²·0.5 + cross·nx²·0.3 + edge_curl·edge_factor²·0.2 with
nx = (x − cx)/(width/2), ny = (y − ymin)/height and
edge_factor = 1 − clamp(edge_dist/(0.3·width/2), 0, 1). -/
theorem leaf_deformation_spec :
    (∀ g : LeafShapeGenerator, g.midrib_curvature = 0 → g.cross_curvature = 0 →
      g.edge_curl = 0 →
      (leaf_generate g).vertices.all (fun v => decide (|v.z| ≤ 1e-6)) = true) ∧
    (∀ (g : LeafShapeGenerator) (mesh : Mesh) (contour : List Vec2),
      mesh.vertices ≠ [] →
      ¬((contour_bbox contour).2.x - (contour_bbox contour).1.x < 1e-10 ∨
        (contour_bbox contour).2.y - (contour_bbox contour).1.y < 1e-10) →
      ∀ i, i < mesh.vertices.length →
        ((apply_deformation g mesh contour).vertices.getD i ⟨0, 0, 0⟩).z =
          g.midrib_curvature *
              (((mesh.vertices.getD i ⟨0, 0, 0⟩).y - (contour_bbox contour).1.y) /
                ((contour_bbox contour).2.y - (contour_bbox contour).1.y)) ^ 2 * 0.5 +
            g.cross_curvature *
              (((mesh.vertices.getD i ⟨0, 0, 0⟩).x -
                  ((contour_bbox contour).1.x + (contour_bbox contour).2.x) / 2) /
                (((contour_bbox contour).2.x - (contour_bbox contour).1.x) / 2)) ^ 2 *
              0.3 +
            g.edge_curl *
              (1 - clampR (edge_distance contour
                  ⟨(mesh.vertices.getD i ⟨0, 0, 0⟩).x,
                   (mesh.vertices.getD i ⟨0, 0, 0⟩).y⟩ /
                  (0.3 *
                    (((contour_bbox contour).2.x - (contour_bbox contour).1.x) / 2)))
                0 1) ^ 2 * 0.2) := by
  constructor
  · intro g h1 h2 h3
    rw [List.all_eq_true]
    intro v hv
    rw [decide_eq_true_eq]
    have hz : v.z = 0 := by
      revert v hv
      simp only [leaf_generate]
      apply apply_deformation_z_zero _ _ _ h1 h2 h3
      rw [compute_uvs_vertices]
      exact triangulate_z_zero _
    rw [hz]
    norm_num
  · intro g mesh contour hne hbb i hi
    simp only [apply_deformation]
    rw [if_neg hne, if_neg hbb]
    rw [List.getD_eq_getElem?_getD, List.getElem?_map, List.getElem?_eq_getElem hi]
    simp only [Option.map_some', Option.map_some, Option.getD_some]
    rw [List.getD_eq_getElem mesh.vertices ⟨0, 0, 0⟩ hi]
    show deform_z g contour _ _ _ _ _ = _
    simp only [deform_z]
    have harg : edge_distance contour
        ⟨(mesh.vertices[i]).x, (mesh.vertices[i]).y⟩ /
          (((contour_bbox contour).2.x - (contour_bbox contour).1.x) * 0.5 * 0.3) =
        edge_distance contour
        ⟨(mesh.vertices[i]).x, (mesh.vertices[i]).y⟩ /
          (0.3 * (((contour_bbox contour).2.x - (contour_bbox contour).1.x) / 2)) := by
      ring_nf
    rw [harg]
    ring

/-- Concrete inputs for the deformation witness. -/
def unit_square_contour : List Vec2 := [⟨0, 0⟩, ⟨1, 0⟩, ⟨1, 1⟩, ⟨0, 1⟩]

def one_vertex_mesh : Mesh := { vertices := [⟨0, 0, 0⟩] }

def deform_ones_g : LeafShapeGenerator :=
  ⟨2, 1, 1, 3, 3, 3, 0.5, MarginType.Entire, 0, 0.1, 0.5, 0, 1, 1, 1, 64⟩

def deform_zero_g : LeafShapeGenerator :=
  ⟨2, 1, 1, 3, 3, 3, 0.5, MarginType.Entire, 0, 0.1, 0.5, 0, 0, 0, 0, 64⟩

/-- C9 witness: with all deformation parameters zero every generated vertex
passes the |z| ≤ 1e-6 check, and on the unit-square contour with all three
parameters 1 the z of the vertex (0, 0, 0) satisfies the formula. -/
theorem leaf_deformation_spec_witness :
    (leaf_generate deform_zero_g).vertices.all
      (fun v => decide (|v.z| ≤ 1e-6)) = true ∧
    ((apply_deformation deform_ones_g one_vertex_mesh
        unit_square_contour).vertices.getD 0 ⟨0, 0, 0⟩).z =
      deform_ones_g.midrib_curvature *
          (((one_vertex_mesh.vertices.getD 0 ⟨0, 0, 0⟩).y -
              (contour_bbox unit_square_contour).1.y) /
            ((contour_bbox unit_square_contour).2.y -
              (contour_bbox unit_square_contour).1.y)) ^ 2 * 0.5 +
        deform_ones_g.cross_curvature *
          (((one_vertex_mesh.vertices.getD 0 ⟨0, 0, 0⟩).x -
              ((contour_bbox unit_square_contour).1.x +
                (contour_bbox unit_square_contour).2.x) / 2) /
            (((contour_bbox unit_square_contour).2.x -
              (contour_bbox unit_square_contour).1.x) / 2)) ^ 2 * 0.3 +
        deform_ones_g.edge_curl *
          (1 - clampR (edge_distance unit_square_contour
              ⟨(one_vertex_mesh.vertices.getD 0 ⟨0, 0, 0⟩).x,
               (one_vertex_mesh.vertices.getD 0 ⟨0, 0, 0⟩).y⟩ /
              (0.3 * (((contour_bbox unit_square_contour).2.x -
                (contour_bbox unit_square_contour).1.x) / 2)))
            0 1) ^ 2 * 0.2 := by
  constructor
  · exact leaf_deformation_spec.1 deform_zero_g rfl rfl rfl
  · exact leaf_deformation_spec.2 deform_ones_g one_vertex_mesh unit_square_contour
      (by simp [one_vertex_mesh])
      (by norm_num [contour_bbox, unit_square_contour, List.foldl_cons,
        List.foldl_nil, List.getD, min_def, max_def])
      0 (by simp [one_vertex_mesh])
